import Mathlib

/-!
# Verification of the Dash data-contract creator core (src/main.rs)

Shallow embedding of the contract compiler (`generate_json_object`,
`generate_nested_properties`), the importer (`parse_imported_json`) and the
validation adapter's reduction step (`extract_basic_error_messages`).

Modelling conventions:
* `serde_json::Value` is modelled by `Json`, with objects as insertion-ordered
  association lists (the crate is used with order-preserving maps; `Map::insert`
  replaces the value in place for an existing key, otherwise appends).
* The Rust importer first runs `serde_json::from_str::<HashMap<String, Value>>`
  on the pasted text; we model the import entry point on the *result* of that
  parse: `none` models a parse failure (the code then takes `unwrap_or_default`),
  `some kvs` models a successfully parsed top-level object. The iteration order
  of a `std::collections::HashMap` (main.rs 882) is *not* insertion order and
  is unspecified, so `kvs` stands for the parsed entries in whatever order the
  map enumerates them: statements about importing a compiled document must hold
  for every permutation of its entries.
* Rust panics (`panic!`, `unwrap()` on `None`) are modelled as `Except.error`
  with the panic message, since a panic aborts the whole call.
* `u32` fields are `Nat` (casts `as u32` keep the `% 2^32` truncation),
  `i32` fields are `Int` (casts `as i32` keep the two's-complement wrap).
-/

namespace DCC

/-- JSON values, with objects as insertion-ordered association lists. -/
inductive Json where
  | str (s : String)
  | num (n : Int)
  | bool (b : Bool)
  | arr (xs : List Json)
  | obj (kvs : List (String × Json))

/-- First binding of key `k` in an association list (models `Map::get`). -/
def Json.lookup (kvs : List (String × Json)) (k : String) : Option Json :=
  match kvs with
  | [] => none
  | (k', v) :: rest => if k' = k then some v else Json.lookup rest k

/-- Models `serde_json::Map::insert` on an order-preserving map: replace in
place if the key exists, otherwise append at the end. -/
def insertKV (m : List (String × Json)) (k : String) (v : Json) : List (String × Json) :=
  match m with
  | [] => [(k, v)]
  | (k', v') :: rest => if k' = k then (k, v) :: rest else (k', v') :: insertKV rest k v

/-- Conditional insert: models the Rust `if guard { map.insert(...) }` pattern. -/
def insertIf (m : List (String × Json)) (c : Prop) [Decidable c] (k : String) (v : Json) :
    List (String × Json) :=
  if c then insertKV m k v else m

/-- Models `Value::as_object`. -/
def Json.asObj : Json → Option (List (String × Json))
  | .obj kvs => some kvs
  | _ => none

/-- Models `Value::as_str` (followed by `to_string`). -/
def Json.asStr : Json → Option String
  | .str s => some s
  | _ => none

/-- Models `Value::as_bool`. -/
def Json.asBool : Json → Option Bool
  | .bool b => some b
  | _ => none

/-- Models `Value::as_u64`. -/
def Json.asU64 : Json → Option Nat
  | .num n => if 0 ≤ n ∧ n < 2 ^ 64 then some n.toNat else none
  | _ => none

/-- Models `Value::as_i64`. -/
def Json.asI64 : Json → Option Int
  | .num n => if -2 ^ 63 ≤ n ∧ n < 2 ^ 63 then some n else none
  | _ => none

/-- Models the Rust cast `as u32` on a `u64`. -/
def toU32 (n : Nat) : Nat := n % 2 ^ 32

/-- Models the Rust cast `as i32` on an `i64` (two's-complement wrap). -/
def toI32 (n : Int) : Int := (n + 2 ^ 31) % 2 ^ 32 - 2 ^ 31

/-- Hex digit, for JSON control-character escapes. -/
def hexDigit (n : Nat) : Char :=
  if n < 10 then Char.ofNat (48 + n) else Char.ofNat (87 + n)

/-- JSON string escaping of a single character, as `serde_json` emits it. -/
def escapeChar (c : Char) : String :=
  if c = '"' then "\\\""
  else if c = '\\' then "\\\\"
  else if c = '\n' then "\\n"
  else if c = '\r' then "\\r"
  else if c = '\t' then "\\t"
  else if c = Char.ofNat 8 then "\\b"
  else if c = Char.ofNat 12 then "\\f"
  else if c.toNat < 32 then
    "\\u00" ++ String.singleton (hexDigit (c.toNat / 16)) ++ String.singleton (hexDigit (c.toNat % 16))
  else String.singleton c

/-- A JSON string literal with quotes, as `serde_json` serializes it. -/
def strLit (s : String) : String :=
  "\"" ++ String.join (s.toList.map escapeChar) ++ "\""

mutual

/-- Compact serialization of a JSON value (models `Value::to_string`). -/
def Json.serialize : Json → String
  | .str s => strLit s
  | .num n => toString n
  | .bool b => if b then "true" else "false"
  | .arr xs => "[" ++ Json.serializeArr xs ++ "]"
  | .obj kvs => "\x7b" ++ Json.serializeMembers kvs ++ "\x7d"

/-- Comma-separated serialization of array elements. -/
def Json.serializeArr : List Json → String
  | [] => ""
  | [x] => x.serialize
  | x :: y :: xs => x.serialize ++ "," ++ Json.serializeArr (y :: xs)

/-- Comma-separated serialization of object members. -/
def Json.serializeMembers : List (String × Json) → String
  | [] => ""
  | [(k, v)] => strLit k ++ ":" ++ v.serialize
  | (k, v) :: m :: kvs => strLit k ++ ":" ++ v.serialize ++ "," ++ Json.serializeMembers (m :: kvs)

end

/-- Property data types (`enum DataType`), default `String`. -/
inductive DataType where
  | String
  | Integer
  | Array
  | Object
  | Number
  | Boolean
deriving DecidableEq

/-- The fields of `struct Property`, parameterized by the type of the nested
property list so that the recursive knot can be tied in `Property`.
Field defaults mirror `#[derive(Default)]`. -/
structure PropertyF (α : Type) where
  name : String := ""
  data_type : DataType := DataType.String
  required : Bool := false
  description : Option String := none
  comment : Option String := none
  min_length : Option Nat := none
  max_length : Option Nat := none
  pattern : Option String := none
  format : Option String := none
  minimum : Option Int := none
  maximum : Option Int := none
  byte_array : Option Bool := none
  min_items : Option Nat := none
  max_items : Option Nat := none
  properties : Option (List α) := none
  min_properties : Option Nat := none
  max_properties : Option Nat := none
  rec_required : Option (List String) := none
  additional_properties : Option Bool := none

/-- `struct Property`: recursive through `properties: Option<Box<Vec<Property>>>`. -/
inductive Property where
  | mk (f : PropertyF Property)

/-- Unwrap the field record of a `Property`. -/
def Property.f : Property → PropertyF Property
  | .mk f => f

def Property.name (p : Property) : String := p.f.name

def Property.data_type (p : Property) : DataType := p.f.data_type

def Property.required (p : Property) : Bool := p.f.required

def Property.description (p : Property) : Option String := p.f.description

def Property.comment (p : Property) : Option String := p.f.comment

def Property.min_length (p : Property) : Option Nat := p.f.min_length

def Property.max_length (p : Property) : Option Nat := p.f.max_length

def Property.pattern (p : Property) : Option String := p.f.pattern

def Property.format (p : Property) : Option String := p.f.format

def Property.minimum (p : Property) : Option Int := p.f.minimum

def Property.maximum (p : Property) : Option Int := p.f.maximum

def Property.byte_array (p : Property) : Option Bool := p.f.byte_array

def Property.min_items (p : Property) : Option Nat := p.f.min_items

def Property.max_items (p : Property) : Option Nat := p.f.max_items

def Property.properties (p : Property) : Option (List Property) := p.f.properties

def Property.min_properties (p : Property) : Option Nat := p.f.min_properties

def Property.max_properties (p : Property) : Option Nat := p.f.max_properties

def Property.rec_required (p : Property) : Option (List String) := p.f.rec_required

def Property.additional_properties (p : Property) : Option Bool := p.f.additional_properties

/-- `Property::default()`. -/
def Property.default : Property := .mk {}

/-- Functional update of the `rec_required` field (the only `Property` field
the compiler mutates). -/
def Property.setRecRequired : Property → Option (List String) → Property
  | .mk f, rr => .mk { f with rec_required := rr }

/-- `struct Index`; `properties` entries model the `IndexProperties(String, String)`
tuple struct (`.1` is the property path, `.2` the sort direction, default
`("", "asc")`). -/
structure Index where
  name : String := ""
  properties : List (String × String) := []
  unique : Bool := false
deriving DecidableEq

/-- `struct DocumentType`; defaults mirror `impl Default for DocumentType`. -/
structure DocumentType where
  name : String := ""
  properties : List Property := []
  indices : List Index := []
  required : List String := []
  additionalProperties : Bool := false
  comment : String := ""

/-! ## Contract compiler (`Model::generate_json_object`, `Model::generate_nested_properties`) -/

/-- The fixed type-name map used when emitting `"type"` (main.rs lines 679-686). -/
def typeName : DataType → String
  | .String => "string"
  | .Integer => "integer"
  | .Array => "array"
  | .Object => "object"
  | .Number => "number"
  | .Boolean => "boolean"

/-- The scalar-field emission block shared (textually duplicated in the source)
by top-level properties (main.rs 687-716) and nested properties (807-836):
`description`, `minLength`, `maxLength`, `pattern`, `format`, `minimum`,
`maximum`, `byteArray`, `minItems`, `maxItems`, in that order, each emitted
only when non-zero / non-empty (`byteArray` whenever present). -/
def emitScalars (m0 : List (String × Json)) (p : Property) : List (String × Json) :=
  let m := insertIf m0 (0 < (p.description.map String.length).getD 0) "description"
    (.str (p.description.getD ""))
  let m := insertIf m (0 < p.min_length.getD 0) "minLength" (.num (p.min_length.getD 0))
  let m := insertIf m (0 < p.max_length.getD 0) "maxLength" (.num (p.max_length.getD 0))
  let m := insertIf m (0 < (p.pattern.map String.length).getD 0) "pattern"
    (.str (p.pattern.getD ""))
  let m := insertIf m (0 < (p.format.map String.length).getD 0) "format"
    (.str (p.format.getD ""))
  let m := insertIf m (0 < p.minimum.getD 0) "minimum" (.num (p.minimum.getD 0))
  let m := insertIf m (0 < p.maximum.getD 0) "maximum" (.num (p.maximum.getD 0))
  let m := insertIf m p.byte_array.isSome "byteArray" (.bool (p.byte_array.getD false))
  let m := insertIf m (0 < p.min_items.getD 0) "minItems" (.num (p.min_items.getD 0))
  let m := insertIf m (0 < p.max_items.getD 0) "maxItems" (.num (p.max_items.getD 0))
  m

/-- The object emitted for one *nested* property (main.rs 798-851): note that a
nested `Object` child's own property list is emitted as the empty object
(`json!({})`, line 838) and its `required` list is never emitted. -/
def generate_nested_prop_obj (c : Property) : List (String × Json) :=
  let m := insertKV [] "type" (.str (typeName c.data_type))
  let m := emitScalars m c
  let m := insertIf m (c.data_type = DataType.Object) "properties" (.obj [])
  let m := insertIf m (0 < c.min_properties.getD 0) "minProperties" (.num (c.min_properties.getD 0))
  let m := insertIf m (0 < c.max_properties.getD 0) "maxProperties" (.num (c.max_properties.getD 0))
  let m := insertIf m (c.data_type = DataType.Object) "additionalProperties" (.bool false)
  let m := insertIf m (0 < (c.comment.map String.length).getD 0) "$comment" (.str (c.comment.getD ""))
  m

/-- One step of the nested required-list synchronization (main.rs 853-861):
append the child's name if required and absent, remove it if not required
and present. -/
def syncRecStep (acc : Option (List String)) (c : Property) : Option (List String) :=
  if c.required then
    if (acc.getD []).contains c.name then acc else some ((acc.getD []) ++ [c.name])
  else
    if (acc.map (fun v => v.contains c.name)).getD false then
      acc.map (fun v => v.filter (fun x => x != c.name))
    else acc

/-- The loop of `generate_nested_properties` (main.rs 797-863): builds the
nested properties map (the source inserts each entry twice, lines 852 and 862)
while threading the `rec_required` synchronization. -/
def nestedFold : List Property → List (String × Json) → Option (List String) →
    List (String × Json) × Option (List String)
  | [], m, acc => (m, acc)
  | c :: rest, m, acc =>
    let o := generate_nested_prop_obj c
    let m := insertKV m c.name (.obj o)
    let acc := syncRecStep acc c
    let m := insertKV m c.name (.obj o)
    nestedFold rest m acc

/-- `Model::generate_nested_properties` (main.rs 794-866), returning the nested
properties map together with the property whose `rec_required` was mutated. -/
def generate_nested_properties (p : Property) : List (String × Json) × Property :=
  match p.properties with
  | none => ([], p)
  | some nested =>
    let r := nestedFold nested [] p.rec_required
    (r.1, p.setRecRequired r.2)

/-- The object emitted for one top-level property (main.rs 678-735), returning
also the property as left after the nested `rec_required` mutation. Emission
order: `type`, scalars, `properties` (Object only, recursing one level),
`minProperties`, `maxProperties`, `required` (from the post-sync
`rec_required`), `additionalProperties` (Object only), `$comment`. -/
def generate_prop_obj (p : Property) : List (String × Json) × Property :=
  let m := insertKV [] "type" (.str (typeName p.data_type))
  let m := emitScalars m p
  let r := if p.data_type = DataType.Object then
      let n := generate_nested_properties p
      (insertKV m "properties" (.obj n.1), n.2)
    else (m, p)
  let m := r.1
  let p' := r.2
  let m := insertIf m (0 < p.min_properties.getD 0) "minProperties" (.num (p.min_properties.getD 0))
  let m := insertIf m (0 < p.max_properties.getD 0) "maxProperties" (.num (p.max_properties.getD 0))
  let m := insertIf m (0 < (p'.rec_required.map List.length).getD 0) "required"
    (.arr ((p'.rec_required.getD []).map Json.str))
  let m := insertIf m (p.data_type = DataType.Object) "additionalProperties" (.bool false)
  let m := insertIf m (0 < (p.comment.map String.length).getD 0) "$comment" (.str (p.comment.getD ""))
  (m, p')

/-- One step of the document-level required-list synchronization (main.rs
737-745). -/
def syncDocStep (r : List String) (p : Property) : List String :=
  if p.required then
    if r.contains p.name then r else r ++ [p.name]
  else
    if r.contains p.name then r.filter (fun x => x != p.name) else r

/-- The property loop of `generate_json_object` (main.rs 676-746): builds the
`properties` map, the mutated property list and the synchronized `required`
list. -/
def docPropsRec : List Property → List (String × Json) → List String →
    List (String × Json) × List Property × List String
  | [], m, r => (m, [], r)
  | p :: rest, m, r =>
    let o := generate_prop_obj p
    let res := docPropsRec rest (insertKV m p.name (.obj o.1)) (syncDocStep r p)
    (res.1, o.2 :: res.2.1, res.2.2)

/-- The object emitted for one index (main.rs 748-771): `unique` is emitted
only when `true`; each `(path, direction)` pair becomes a single-entry object. -/
def generate_index_obj (ix : Index) : Json :=
  if ix.unique then
    .obj [("name", .str ix.name),
      ("properties", .arr (ix.properties.map fun t => .obj (insertKV [] t.1 (.str t.2)))),
      ("unique", .bool ix.unique)]
  else
    .obj [("name", .str ix.name),
      ("properties", .arr (ix.properties.map fun t => .obj (insertKV [] t.1 (.str t.2))))]

/-- The per-document-type object of `generate_json_object` (main.rs 747-787),
returning also the document type with its `required` list and properties as
mutated by the loop. -/
def generate_doc_obj (d : DocumentType) : List (String × Json) × DocumentType :=
  let r := docPropsRec d.properties [] d.required
  let props_map := r.1
  let props' := r.2.1
  let required' := r.2.2
  let indices_arr := d.indices.map generate_index_obj
  let m := insertKV [] "type" (.str "object")
  let m := insertKV m "properties" (.obj props_map)
  let m := insertIf m (d.indices ≠ []) "indices" (.arr indices_arr)
  let m := insertIf m (required' ≠ []) "required" (.arr (required'.map Json.str))
  let m := insertKV m "additionalProperties" (.bool false)
  let m := insertIf m (0 < d.comment.length) "$comment" (.str d.comment)
  (m, { d with properties := props', required := required' })

/-- `Model::generate_json_object` (main.rs 670-792): returns the vector of
serialized per-document-type fragments (each is the serialization of
`{name: obj}` with the outer braces stripped, main.rs 788) together with the
document types as left after the required-set mutations. -/
def generate_json_object : List DocumentType → List String × List DocumentType
  | [] => ([], [])
  | d :: rest =>
    let r := generate_doc_obj d
    let rec' := generate_json_object rest
    (Json.serializeMembers [(d.name, Json.obj r.1)] :: rec'.1, r.2 :: rec'.2)

/-- The entries of the parsed form of the full compiled document, listed in
compilation order: the UI joins the fragments with commas inside braces
(main.rs 1095-1096) and the importer parses that text back into a
`HashMap<String, Value>`, whose *contents* are exactly these `(name, object)`
entries. The `HashMap`'s iteration order (main.rs 882) is unspecified and need
not be this order, so the importer may be handed any permutation of this list;
round-trip statements therefore quantify over all permutations of it (a
one-entry map has a unique enumeration). -/
def compiledMap (docs : List DocumentType) : List (String × Json) :=
  docs.map fun d => (d.name, Json.obj (generate_doc_obj d).1)

/-! ## Contract importer (`Model::parse_imported_json`)

Rust panics abort the whole call; they are modelled as `Except.error` carrying
the panic message. -/

/-- The `required`-membership check (main.rs 897-903, and its textual duplicate
for nested properties at 964-970): the flag is set iff the sibling `required`
array contains the property name as a JSON string. -/
def importRequiredFlag (o : List (String × Json)) (pname : String) : Bool :=
  match Json.lookup o "required" with
  | some (.arr xs) => xs.any fun v => match v with | .str s => s == pname | _ => false
  | _ => false

/-- The inverse type-name map (main.rs 909-917): a non-string `type` value hits
`as_str().unwrap()` and an unknown string hits `panic!("Unexpected type value")`. -/
def importDataType (j : Json) : Except String DataType :=
  match j with
  | .str s =>
    if s = "string" then .ok .String
    else if s = "integer" then .ok .Integer
    else if s = "array" then .ok .Array
    else if s = "object" then .ok .Object
    else if s = "number" then .ok .Number
    else if s = "boolean" then .ok .Boolean
    else .error "Unexpected type value"
  | _ => .error "called Option::unwrap() on a None value"

/-- Reading the (optional) `type` key of a property object (main.rs 908-918):
when the key is absent the `Property::default()` data type `String` is kept. -/
def importDataTypeField (o : List (String × Json)) : Except String DataType :=
  match Json.lookup o "type" with
  | some j => importDataType j
  | none => .ok DataType.String

/-- The scalar constraint fields read back by the importer, shared (textually
duplicated in the source) by top-level (main.rs 919-957) and nested (983-1021)
properties. A present key of the wrong JSON type leaves the field `none`, like
the `as_*` conversions in the source. -/
structure ScalarFields where
  byte_array : Option Bool
  description : Option String
  comment : Option String
  min_length : Option Nat
  max_length : Option Nat
  pattern : Option String
  format : Option String
  minimum : Option Int
  maximum : Option Int
  min_items : Option Nat
  max_items : Option Nat
  min_properties : Option Nat
  max_properties : Option Nat

/-- Read the scalar constraint fields of a property object. -/
def readScalars (o : List (String × Json)) : ScalarFields where
  byte_array := (Json.lookup o "byteArray").bind Json.asBool
  description := (Json.lookup o "description").bind Json.asStr
  comment := (Json.lookup o "$comment").bind Json.asStr
  min_length := ((Json.lookup o "minLength").bind Json.asU64).map toU32
  max_length := ((Json.lookup o "maxLength").bind Json.asU64).map toU32
  pattern := (Json.lookup o "pattern").bind Json.asStr
  format := (Json.lookup o "format").bind Json.asStr
  minimum := ((Json.lookup o "minimum").bind Json.asI64).map toI32
  maximum := ((Json.lookup o "maximum").bind Json.asI64).map toI32
  min_items := ((Json.lookup o "minItems").bind Json.asU64).map toU32
  max_items := ((Json.lookup o "maxItems").bind Json.asU64).map toU32
  min_properties := ((Json.lookup o "minProperties").bind Json.asU64).map toU32
  max_properties := ((Json.lookup o "maxProperties").bind Json.asU64).map toU32

/-- One nested property (main.rs 961-1022): its `required` flag comes from the
*parent* property object's `required` array; its own nested `properties`,
`rec_required` and `additional_properties` are never read. -/
def importNestedProperty (prop_obj : List (String × Json)) (cname : String)
    (cobj : List (String × Json)) : Except String Property :=
  match importDataTypeField cobj with
  | .error e => .error e
  | .ok dt =>
    let s := readScalars cobj
    let fr : PropertyF Property :=
      { name := cname, data_type := dt,
        required := importRequiredFlag prop_obj cname,
        description := s.description, comment := s.comment,
        min_length := s.min_length, max_length := s.max_length,
        pattern := s.pattern, format := s.format,
        minimum := s.minimum, maximum := s.maximum, byte_array := s.byte_array,
        min_items := s.min_items, max_items := s.max_items, properties := none,
        min_properties := s.min_properties, max_properties := s.max_properties,
        rec_required := none, additional_properties := none }
    .ok (Property.mk fr)

/-- The nested-properties loop (main.rs 960-1024): entries whose value is not a
JSON object are skipped (never pushed). -/
def importNestedList (prop_obj : List (String × Json)) :
    List (String × Json) → Except String (List Property)
  | [] => .ok []
  | (cname, cval) :: rest =>
    match cval with
    | .obj cobj =>
      match importNestedProperty prop_obj cname cobj with
      | .error e => .error e
      | .ok c =>
        match importNestedList prop_obj rest with
        | .error e => .error e
        | .ok cs => .ok (c :: cs)
    | _ => importNestedList prop_obj rest

/-- One top-level property (main.rs 892-1030): the `required` flag is read from
the document object's `required` array even when the property value is not an
object; the reconstructed `rec_required` and `additional_properties` are always
`none`. -/
def importProperty (doc_obj : List (String × Json)) (pname : String) (pval : Json) :
    Except String Property :=
  let required := importRequiredFlag doc_obj pname
  match pval with
  | .obj pobj =>
    (match importDataTypeField pobj with
    | .error e => .error e
    | .ok dt =>
      let s := readScalars pobj
      match (match Json.lookup pobj "properties" with
        | some nested =>
          (match nested with
          | .obj nmap =>
            (match importNestedList pobj nmap with
            | .error e => Except.error e
            | .ok cs => Except.ok (some cs))
          | _ => Except.ok none)
        | none => Except.ok none : Except String (Option (List Property))) with
      | .error e => .error e
      | .ok props =>
        let fr : PropertyF Property :=
          { name := pname, data_type := dt, required := required,
            description := s.description, comment := s.comment,
            min_length := s.min_length, max_length := s.max_length,
            pattern := s.pattern, format := s.format,
            minimum := s.minimum, maximum := s.maximum, byte_array := s.byte_array,
            min_items := s.min_items, max_items := s.max_items, properties := props,
            min_properties := s.min_properties, max_properties := s.max_properties,
            rec_required := none, additional_properties := none }
        .ok (Property.mk fr))
  | _ => .ok (Property.mk { name := pname, required := required })

/-- The top-level properties loop (main.rs 892-1031): every entry is pushed,
object-valued or not. -/
def importPropertyList (doc_obj : List (String × Json)) :
    List (String × Json) → Except String (List Property)
  | [] => .ok []
  | (pname, pval) :: rest =>
    match importProperty doc_obj pname pval with
    | .error e => .error e
    | .ok p =>
      match importPropertyList doc_obj rest with
      | .error e => .error e
      | .ok ps => .ok (p :: ps)

/-- The per-pair loop over one index-properties object (main.rs 1064-1067):
every key overwrites both components, so the last key wins; the sort direction
goes through `as_str().unwrap()`. -/
def importIndexPairs : List (String × Json) → String × String → Except String (String × String)
  | [], acc => .ok acc
  | (k, v) :: rest, _ =>
    match v.asStr with
    | some s => importIndexPairs rest (k, s)
    | none => .error "called Option::unwrap() on a None value"

/-- The index-properties array loop (main.rs 1056-1073): non-object entries are
skipped; each object starts from `IndexProperties::default()` = `("", "asc")`. -/
def importIndexProps : List Json → Except String (List (String × String))
  | [] => .ok []
  | v :: rest =>
    match v with
    | .obj kvs =>
      match importIndexPairs kvs ("", "asc") with
      | .error e => .error e
      | .ok ip =>
        match importIndexProps rest with
        | .error e => .error e
        | .ok others => .ok (ip :: others)
    | _ => importIndexProps rest

/-- One index (main.rs 1040-1077): `name` and `unique` go through
`as_str().unwrap()` / `as_bool().unwrap()` when present. -/
def importIndex (index_obj : List (String × Json)) : Except String Index :=
  match (match Json.lookup index_obj "name" with
    | some j =>
      (match j.asStr with
      | some s => Except.ok s
      | none => Except.error "called Option::unwrap() on a None value")
    | none => Except.ok "" : Except String String) with
  | .error e => .error e
  | .ok name =>
    match (match Json.lookup index_obj "unique" with
      | some j =>
        (match j.asBool with
        | some b => Except.ok b
        | none => Except.error "called Option::unwrap() on a None value")
      | none => Except.ok false : Except String Bool) with
    | .error e => .error e
    | .ok unique =>
      match (match Json.lookup index_obj "properties" with
        | some (.arr arr) => importIndexProps arr
        | _ => .ok []) with
      | .error e => .error e
      | .ok properties => .ok { name := name, properties := properties, unique := unique }

/-- The indices array loop (main.rs 1037-1080): non-object entries are skipped. -/
def importIndexList : List Json → Except String (List Index)
  | [] => .ok []
  | v :: rest =>
    match v with
    | .obj kvs =>
      match importIndex kvs with
      | .error e => .error e
      | .ok ix =>
        match importIndexList rest with
        | .error e => .error e
        | .ok ixs => .ok (ix :: ixs)
    | _ => importIndexList rest

/-- One document type (main.rs 882-1090): top-level values that are not JSON
objects are skipped entirely (`.ok none`). Note that the `$comment`
reconstruction (main.rs 1082-1085) sits *inside* the
`if let Some(indices) = doc_type_obj.get("indices")` block (opened at 1036),
so a document type without an `indices` key keeps the default empty comment.
The reconstructed `required` list always stays the default `[]`. -/
def importDocumentType (name : String) (val : Json) : Except String (Option DocumentType) :=
  match val.asObj with
  | none => .ok none
  | some doc_obj =>
    match (match Json.lookup doc_obj "properties" with
      | some props =>
        (match props.asObj with
        | some pmap => importPropertyList doc_obj pmap
        | none => .ok [])
      | none => .ok []) with
    | .error e => .error e
    | .ok properties =>
      match (match Json.lookup doc_obj "indices" with
        | some ind =>
          (match (match ind with
            | .arr arr => importIndexList arr
            | _ => Except.ok [] : Except String (List Index)) with
          | .error e => Except.error e
          | .ok indices =>
            match Json.lookup doc_obj "$comment" with
            | some c =>
              (match c.asStr with
              | some s => Except.ok (indices, s)
              | none => Except.error "called Option::unwrap() on a None value")
            | none => Except.ok (indices, ""))
        | none => Except.ok ([], "") : Except String (List Index × String)) with
      | .error e => .error e
      | .ok ic =>
        let d : DocumentType :=
          { name := name, properties := properties, indices := ic.1,
            required := [], additionalProperties := false, comment := ic.2 }
        .ok (some d)

/-- The loop over the parsed top-level map (main.rs 882-1091). -/
def importDocList : List (String × Json) → Except String (List DocumentType)
  | [] => .ok []
  | (name, val) :: rest =>
    match importDocumentType name val with
    | .error e => .error e
    | .ok none => importDocList rest
    | .ok (some d) =>
      match importDocList rest with
      | .error e => .error e
      | .ok ds => .ok (d :: ds)

/-- `Model::parse_imported_json` (main.rs 868-1092). The argument is the result
of `serde_json::from_str::<HashMap<String, Value>>(&self.imported_json)`:
`none` models a parse failure, which the source silently turns into the empty
map via `unwrap_or_default()` (main.rs 871); the resulting document-type list
wholesale replaces the previous one. (The `json_object` display strings built
at main.rs 874-876 are UI state and not modelled.) -/
def parse_imported_json (parsed : Option (List (String × Json))) :
    Except String (List DocumentType) :=
  importDocList (parsed.getD [])

/-! ## Validation adapter (`Model::extract_basic_error_messages`) -/

/-- The violation records returned by the external validator, as far as the
reduction step inspects them (main.rs 1111-1124): a `BasicError` is either a
`JsonSchemaError` carrying a summary and an instance path, or some other basic
error carrying its `Display` text. -/
inductive BasicError where
  | JsonSchemaError (error_summary : String) (instance_path : String)
  | otherBasic (display : String)
deriving DecidableEq

/-- `ConsensusError`: only the `BasicError` variant is inspected; all other
variants are filtered out. -/
inductive ConsensusError where
  | BasicError (inner : BasicError)
  | otherConsensus
deriving DecidableEq

/-- The per-violation formatting (main.rs 1116-1120). -/
def formatBasicError : BasicError → String
  | .JsonSchemaError s p => "JsonSchemaError: " ++ s ++ ", Path: " ++ p
  | .otherBasic d => d

/-- The formatted messages before deduplication (main.rs 1112-1125). -/
def formattedMessages (errors : List ConsensusError) : List String :=
  errors.filterMap fun e =>
    match e with
    | .BasicError inner => some (formatBasicError inner)
    | _ => none

/-- `Model::extract_basic_error_messages` (main.rs 1111-1131): the collected
messages pass through a `HashSet<String>`, modelled by `List.dedup` (the set's
iteration order is arbitrary; only the underlying set of messages is
observable). -/
def extract_basic_error_messages (errors : List ConsensusError) : List String :=
  (formattedMessages errors).dedup

/-! ## Basic lemmas about the JSON map operations -/

theorem lookup_insertKV_self (m : List (String × Json)) (k : String) (v : Json) :
    Json.lookup (insertKV m k v) k = some v := by
  induction m with
  | nil => simp [insertKV, Json.lookup]
  | cons hd tl ih =>
    obtain ⟨k', v'⟩ := hd
    by_cases hk : k' = k
    · subst hk
      simp [insertKV, Json.lookup]
    · simp [insertKV, Json.lookup, hk, ih]

theorem lookup_insertKV_ne (m : List (String × Json)) (k k' : String) (v : Json)
    (h : k' ≠ k) : Json.lookup (insertKV m k v) k' = Json.lookup m k' := by
  induction m with
  | nil => simp [insertKV, Json.lookup, Ne.symm h]
  | cons hd tl ih =>
    obtain ⟨k'', v''⟩ := hd
    by_cases hk : k'' = k
    · subst hk
      simp [insertKV, Json.lookup, Ne.symm h]
    · simp [insertKV, Json.lookup, hk, ih]

theorem lookup_insertIf_self (m : List (String × Json)) (c : Prop) [Decidable c]
    (k : String) (v : Json) :
    Json.lookup (insertIf m c k v) k = if c then some v else Json.lookup m k := by
  by_cases hc : c <;> simp [insertIf, hc, lookup_insertKV_self]

theorem lookup_insertIf_ne (m : List (String × Json)) (c : Prop) [Decidable c]
    (k k' : String) (v : Json) (h : k' ≠ k) :
    Json.lookup (insertIf m c k v) k' = Json.lookup m k' := by
  by_cases hc : c <;> simp [insertIf, hc, lookup_insertKV_ne _ _ _ _ h]

theorem insertKV_fresh (m : List (String × Json)) (k : String) (v : Json)
    (h : ∀ w, (k, w) ∉ m) : insertKV m k v = m ++ [(k, v)] := by
  induction m with
  | nil => simp [insertKV]
  | cons hd tl ih =>
    obtain ⟨k', v'⟩ := hd
    have hk : k' ≠ k := by
      intro hkk
      exact h v' (by simp [hkk])
    simp only [insertKV, hk, if_false]
    rw [ih fun w hw => h w (by simp [hw])]
    simp

/-! ## C4: behavior of the importer on unparseable input -/

/-- C4 (code divergence witness): the claim says a parse failure must surface
as a typed `ImportError::Malformed`; the source instead takes
`unwrap_or_default()` on the parse result (main.rs 871), so an unparseable
input silently produces the empty model, indistinguishable from importing an
empty contract. -/
theorem C4_malformed_import_silently_empty :
    parse_imported_json none = Except.ok ([] : List DocumentType) ∧
    parse_imported_json none = parse_imported_json (some []) := by
  constructor <;> rfl

/-! ## C5: behavior of the importer on an unknown type discriminator -/

/-- C5 (code divergence witness): the claim says an unknown type string must
yield a typed `ImportError::UnknownType` carrying the offending path; the
source instead hits `panic!("Unexpected type value")` (main.rs 916), a fatal
abort of the whole call, with no path information. -/
theorem C5_unknown_type_panics :
    parse_imported_json (some [("a", Json.obj [("properties",
        Json.obj [("p", Json.obj [("type", Json.str "frobnicate")])])])]) =
      Except.error "Unexpected type value" := by
  rfl

/-! ## C6: `$comment` reconstruction on import -/

/-- C6 (code divergence witness): the claim says `$comment` is reconstructed
into `comment` regardless of the presence of an `indices` key. In the source
the `$comment` processing (main.rs 1082-1085) is nested inside the
`if let Some(indices) = doc_type_obj.get("indices")` block (main.rs 1036-1086),
so the same document type with `$comment: "hi"` keeps `comment = ""` when it
has no `indices` key, and gets `comment = "hi"` as soon as an (even empty)
`indices` array is present. -/
theorem C6_comment_dropped_without_indices :
    parse_imported_json (some [("note", Json.obj [("type", Json.str "object"),
        ("properties", Json.obj []), ("$comment", Json.str "hi")])]) =
      Except.ok [({ name := "note", comment := "" } : DocumentType)] ∧
    parse_imported_json (some [("note", Json.obj [("type", Json.str "object"),
        ("properties", Json.obj []), ("indices", Json.arr []),
        ("$comment", Json.str "hi")])]) =
      Except.ok [({ name := "note", comment := "hi" } : DocumentType)] := by
  constructor <;> rfl

/-! ## C8: deduplication of formatted violation messages -/

/-- C8: for every list of violation records, the reduced message list contains
exactly the distinct formatted messages, each exactly once: it has no
duplicates, has the same members as the raw formatted list, and each formatted
message occurs in it with count 1 — even when structurally distinct violations
format to identical text. -/
theorem C8_messages_deduplicated (errors : List ConsensusError) :
    (extract_basic_error_messages errors).Nodup ∧
    (∀ m : String, m ∈ extract_basic_error_messages errors ↔ m ∈ formattedMessages errors) ∧
    ∀ m : String, m ∈ formattedMessages errors →
      (extract_basic_error_messages errors).count m = 1 := by
  refine ⟨List.nodup_dedup _, fun m => List.mem_dedup, fun m hm => ?_⟩
  exact List.count_eq_one_of_mem (List.nodup_dedup _) (List.mem_dedup.mpr hm)

/-! ## C9: the compiler mutates only the required bookkeeping -/

/-- Erase the one `Property` field the compiler may mutate (`rec_required`). -/
def eraseProp (p : Property) : Property := p.setRecRequired none

/-- Erase the required bookkeeping of a document type: its `required` list and
each top-level property's `rec_required`. -/
def eraseDoc (d : DocumentType) : DocumentType :=
  { d with required := [], properties := d.properties.map eraseProp }

theorem eraseProp_setRecRequired (p : Property) (rr : Option (List String)) :
    eraseProp (p.setRecRequired rr) = eraseProp p := by
  cases p
  rfl

theorem generate_prop_obj_snd_frame (p : Property) :
    eraseProp (generate_prop_obj p).2 = eraseProp p ∧
      (p.data_type ≠ DataType.Object → (generate_prop_obj p).2 = p) := by
  constructor
  · show eraseProp (if p.data_type = DataType.Object then _ else (_, p)).2 = eraseProp p
    split
    · show eraseProp (generate_nested_properties p).2 = eraseProp p
      rw [generate_nested_properties]
      cases hp : p.properties with
      | none => rfl
      | some nested => exact eraseProp_setRecRequired ..
    · rfl
  · intro h
    show (if p.data_type = DataType.Object then _ else (_, p)).2 = p
    rw [if_neg h]

theorem docPropsRec_props_frame (ps : List Property) (m : List (String × Json))
    (r : List String) :
    List.Forall₂ (fun p' p => eraseProp p' = eraseProp p ∧
        (p.data_type ≠ DataType.Object → p' = p))
      (docPropsRec ps m r).2.1 ps := by
  induction ps generalizing m r with
  | nil => exact List.Forall₂.nil
  | cons p rest ih =>
    exact List.Forall₂.cons (generate_prop_obj_snd_frame p) (ih _ _)

theorem forall₂_erase_map {l₁ l₂ : List Property}
    (h : List.Forall₂ (fun p' p => eraseProp p' = eraseProp p ∧
        (p.data_type ≠ DataType.Object → p' = p)) l₁ l₂) :
    l₁.map eraseProp = l₂.map eraseProp := by
  induction h with
  | nil => rfl
  | cons hpq _ ih => simp [ih, hpq.1]

theorem generate_doc_obj_snd_frame (d : DocumentType) :
    eraseDoc (generate_doc_obj d).2 = eraseDoc d ∧
      List.Forall₂ (fun p' p => p.data_type ≠ DataType.Object → p' = p)
        ((generate_doc_obj d).2).properties d.properties := by
  have hps := docPropsRec_props_frame d.properties [] d.required
  constructor
  · show eraseDoc { d with properties := _, required := _ } = eraseDoc d
    simp only [eraseDoc]
    congr 1
    exact forall₂_erase_map hps
  · exact hps.imp fun _ _ hpq => hpq.2

/-- C9: compilation mutates only the required bookkeeping of the value model:
the document types returned by `generate_json_object` agree with the input
once the document-level `required` lists and the top-level properties'
`rec_required` fields are erased — names, data types, required flags,
constraint fields, nested property lists, indices and comments are all
untouched — and every non-`Object` property is returned entirely unchanged
(its `rec_required` included). -/
theorem C9_compile_frame (docs : List DocumentType) :
    List.Forall₂ (fun d' d => eraseDoc d' = eraseDoc d ∧
        List.Forall₂ (fun p' p => p.data_type ≠ DataType.Object → p' = p)
          d'.properties d.properties)
      (generate_json_object docs).2 docs := by
  induction docs with
  | nil => exact List.Forall₂.nil
  | cons d rest ih => exact List.Forall₂.cons (generate_doc_obj_snd_frame d) ih

/-! ## C10: a property object without a `type` key imports as `String` -/

theorem readScalars_cons_type (v : Json) (o : List (String × Json)) :
    readScalars (("type", v) :: o) = readScalars o := rfl

theorem importNestedProperty_cons_type (v : Json) (pobj cobj : List (String × Json))
    (cname : String) :
    importNestedProperty (("type", v) :: pobj) cname cobj =
      importNestedProperty pobj cname cobj := rfl

theorem importNestedList_cons_type (v : Json) (pobj : List (String × Json))
    (l : List (String × Json)) :
    importNestedList (("type", v) :: pobj) l = importNestedList pobj l := by
  induction l with
  | nil => rfl
  | cons hd tl ih =>
    obtain ⟨cname, cval⟩ := hd
    cases cval <;> simp only [importNestedList, importNestedProperty_cons_type, ih]

/-- C10: a property object lacking a `"type"` key imports without failing on
the missing discriminator and keeps `Property::default()`'s data type `String`:
the import of such an object is indistinguishable from the import of the same
object with an explicit `"type": "string"` entry, any successful import of it
yields data type `String`, and likewise any successful import of a nested
property object lacking `"type"` yields data type `String`. -/
theorem C10_missing_type_defaults_to_string (doc_obj pobj : List (String × Json))
    (pname : String) (h : Json.lookup pobj "type" = none) :
    importProperty doc_obj pname (.obj pobj) =
      importProperty doc_obj pname (.obj (("type", Json.str "string") :: pobj)) ∧
    (∀ p : Property, importProperty doc_obj pname (.obj pobj) = .ok p →
      p.data_type = DataType.String) ∧
    (∀ (cname : String) (cobj : List (String × Json)) (c : Property),
      Json.lookup cobj "type" = none → importNestedProperty pobj cname cobj = .ok c →
      c.data_type = DataType.String) := by
  have hdt : importDataTypeField pobj = .ok DataType.String := by
    rw [importDataTypeField, h]
  refine ⟨?_, ?_, ?_⟩
  · simp only [importProperty, hdt,
      show importDataTypeField (("type", Json.str "string") :: pobj) =
        Except.ok DataType.String from rfl,
      readScalars_cons_type, importNestedList_cons_type,
      show Json.lookup (("type", Json.str "string") :: pobj) "properties" =
        Json.lookup pobj "properties" from rfl]
  · intro p hp
    simp only [importProperty, hdt] at hp
    split at hp
    · exact absurd hp (by simp)
    · injection hp with h2
      subst h2
      rfl
  · intro cname cobj c hc hok
    simp only [importNestedProperty, importDataTypeField, hc] at hok
    injection hok with h2
    subst h2
    rfl

/-- Witness for C10 at a concrete property object without a `type` key. -/
theorem C10_witness :
    Json.lookup [("description", Json.str "d")] "type" = none ∧
    importProperty [] "p" (.obj [("description", Json.str "d")]) =
      importProperty [] "p" (.obj [("type", Json.str "string"), ("description", Json.str "d")]) :=
  ⟨rfl, (C10_missing_type_defaults_to_string [] [("description", Json.str "d")] "p" rfl).1⟩

/-! ## Lemmas about the required-list synchronization folds -/

/-- The names of a property list. -/
def namesOf (ps : List Property) : List String := ps.map Property.name

/-- The document-level required list after the whole property loop. -/
def syncMany (r : List String) : List Property → List String
  | [] => r
  | p :: ps => syncMany (syncDocStep r p) ps

/-- The nested required list (an `Option`) after the whole nested loop. -/
def recSyncMany (acc : Option (List String)) : List Property → Option (List String)
  | [] => acc
  | c :: cs => recSyncMany (syncRecStep acc c) cs

theorem docPropsRec_required (ps : List Property) (m : List (String × Json))
    (r : List String) : (docPropsRec ps m r).2.2 = syncMany r ps := by
  induction ps generalizing m r with
  | nil => rfl
  | cons p rest ih => simpa [docPropsRec, syncMany] using ih ..

theorem nestedFold_acc (cs : List Property) (m : List (String × Json))
    (acc : Option (List String)) : (nestedFold cs m acc).2 = recSyncMany acc cs := by
  induction cs generalizing m acc with
  | nil => rfl
  | cons c rest ih => simpa [nestedFold, recSyncMany] using ih ..

theorem getD_syncRecStep (acc : Option (List String)) (c : Property) :
    (syncRecStep acc c).getD [] = syncDocStep (acc.getD []) c := by
  cases acc with
  | none =>
    by_cases hr : c.required <;>
      simp [syncRecStep, syncDocStep, hr, List.contains, List.elem]
  | some v =>
    by_cases hr : c.required <;> by_cases hc : c.name ∈ v <;>
      simp [syncRecStep, syncDocStep, hr, hc]

theorem getD_recSyncMany (acc : Option (List String)) (cs : List Property) :
    (recSyncMany acc cs).getD [] = syncMany (acc.getD []) cs := by
  induction cs generalizing acc with
  | nil => rfl
  | cons c rest ih => simp [recSyncMany, syncMany, ih, getD_syncRecStep]

theorem mem_syncDocStep (r : List String) (p : Property) (y : String) (h : p.name ≠ y) :
    (y ∈ syncDocStep r p ↔ y ∈ r) := by
  by_cases hr : p.required <;> by_cases hc : p.name ∈ r <;>
    simp [syncDocStep, hr, hc, List.mem_filter, bne_iff_ne, Ne.symm h]

theorem mem_syncMany_unmentioned (ps : List Property) (r : List String) (y : String)
    (h : ∀ p ∈ ps, p.name ≠ y) : (y ∈ syncMany r ps ↔ y ∈ r) := by
  induction ps generalizing r with
  | nil => exact Iff.rfl
  | cons p rest ih =>
    rw [syncMany, ih _ fun q hq => h q (by simp [hq]),
      mem_syncDocStep _ _ _ (h p (by simp))]

theorem mem_syncMany_mentioned (ps : List Property) (r : List String) (y : String)
    (p : Property) (hnd : (namesOf ps).Nodup) (hp : p ∈ ps) (hname : p.name = y) :
    (y ∈ syncMany r ps ↔ p.required = true) := by
  induction ps generalizing r with
  | nil => cases hp
  | cons q rest ih =>
    rw [namesOf, List.map_cons, List.nodup_cons] at hnd
    by_cases hq : q.name = y
    · have hpq : p = q := by
        rcases List.mem_cons.mp hp with h1 | h1
        · exact h1
        · exfalso
          apply hnd.1
          have hmem : p.name ∈ List.map Property.name rest := List.mem_map_of_mem _ h1
          rw [hname] at hmem
          rw [hq]
          exact hmem
      subst hpq
      rw [syncMany, mem_syncMany_unmentioned]
      · subst hname
        by_cases hr : p.required <;> by_cases hc : p.name ∈ r <;>
          simp [syncDocStep, hr, hc, List.mem_filter, bne_iff_ne]
      · intro c hc hcy
        apply hnd.1
        have hmem : c.name ∈ List.map Property.name rest := List.mem_map_of_mem _ hc
        rw [hcy] at hmem
        rw [hq]
        exact hmem
    · have hp' : p ∈ rest := by
        rcases List.mem_cons.mp hp with h1 | h1
        · exact absurd (h1 ▸ hname) hq
        · exact h1
      rw [syncMany]
      exact ih _ hnd.2 hp'

theorem syncMany_fixpoint (ps : List Property) (r : List String)
    (h : ∀ p ∈ ps, (p.required = true → p.name ∈ r) ∧ (p.required = false → p.name ∉ r)) :
    syncMany r ps = r := by
  induction ps with
  | nil => rfl
  | cons p rest ih =>
    have hstep : syncDocStep r p = r := by
      rcases h p (by simp) with ⟨h1, h2⟩
      by_cases hr : p.required
      · simp [syncDocStep, hr, h1 hr]
      · simp [syncDocStep, hr, h2 (by simpa using hr)]
    rw [syncMany, hstep]
    exact ih fun q hq => h q (by simp [hq])

theorem recSyncMany_fixpoint (cs : List Property) (acc : Option (List String))
    (h : ∀ c ∈ cs, (c.required = true → c.name ∈ acc.getD []) ∧
      (c.required = false → c.name ∉ acc.getD [])) :
    recSyncMany acc cs = acc := by
  induction cs with
  | nil => rfl
  | cons c rest ih =>
    have hstep : syncRecStep acc c = acc := by
      rcases h c (by simp) with ⟨h1, h2⟩
      by_cases hr : c.required
      · simp [syncRecStep, hr, h1 hr]
      · have hnc : c.name ∉ acc.getD [] := h2 (by simpa using hr)
        cases acc with
        | none => simp [syncRecStep, hr]
        | some v => simp [syncRecStep, hr, show c.name ∉ v from hnc]
    rw [recSyncMany, hstep]
    exact ih fun q hq => h q (by simp [hq])

theorem mem_syncMany_iff (ps : List Property) (r : List String) (y : String)
    (hnd : (namesOf ps).Nodup) (hsub : ∀ x ∈ r, x ∈ namesOf ps) :
    (y ∈ syncMany r ps ↔ ∃ p ∈ ps, p.name = y ∧ p.required = true) := by
  by_cases hy : ∃ p ∈ ps, p.name = y
  · obtain ⟨p, hp, hpy⟩ := hy
    constructor
    · intro hmem
      exact ⟨p, hp, hpy, (mem_syncMany_mentioned ps r y p hnd hp hpy).mp hmem⟩
    · rintro ⟨q, hq, hqy, hreq⟩
      exact (mem_syncMany_mentioned ps r y q hnd hq hqy).mpr hreq
  · have hno : ∀ p ∈ ps, p.name ≠ y := fun p hp hpy => hy ⟨p, hp, hpy⟩
    rw [mem_syncMany_unmentioned ps r y hno]
    constructor
    · intro hmem
      exfalso
      have hmem2 := hsub y hmem
      rw [namesOf] at hmem2
      rcases List.mem_map.mp hmem2 with ⟨p, hp, hpy⟩
      exact hy ⟨p, hp, hpy⟩
    · rintro ⟨q, hq, hqy, -⟩
      exact absurd hqy (hno q hq)

/-! ## Projection lemmas for the compiler's state output -/

theorem rec_required_setRecRequired (p : Property) (rr : Option (List String)) :
    (p.setRecRequired rr).rec_required = rr := by
  cases p
  rfl

theorem generate_prop_obj_snd (p : Property) :
    (generate_prop_obj p).2 =
      if p.data_type = DataType.Object then (generate_nested_properties p).2 else p := by
  by_cases h : p.data_type = DataType.Object <;> simp [generate_prop_obj, h]

theorem docPropsRec_props_pointwise (ps : List Property) (m : List (String × Json))
    (r : List String) :
    (docPropsRec ps m r).2.1 = ps.map fun p => (generate_prop_obj p).2 := by
  induction ps generalizing m r with
  | nil => rfl
  | cons p rest ih => simp [docPropsRec, ih]

theorem generate_doc_obj_required (d : DocumentType) :
    ((generate_doc_obj d).2).required = syncMany d.required d.properties := by
  simp [generate_doc_obj, docPropsRec_required]

theorem generate_doc_obj_properties (d : DocumentType) :
    ((generate_doc_obj d).2).properties =
      d.properties.map fun p => (generate_prop_obj p).2 := by
  simp [generate_doc_obj, docPropsRec_props_pointwise]

theorem generate_json_object_snd (docs : List DocumentType) :
    (generate_json_object docs).2 = docs.map fun d => (generate_doc_obj d).2 := by
  induction docs with
  | nil => rfl
  | cons d rest ih => simp [generate_json_object, ih]

theorem generate_json_object_fst (docs : List DocumentType) :
    (generate_json_object docs).1 =
      docs.map fun d => Json.serializeMembers [(d.name, Json.obj (generate_doc_obj d).1)] := by
  induction docs with
  | nil => rfl
  | cons d rest ih => simp [generate_json_object, ih]

theorem forall₂_map_self {α : Type} (f : α → α) (R : α → α → Prop) (l : List α)
    (h : ∀ a ∈ l, R (f a) a) : List.Forall₂ R (l.map f) l := by
  induction l with
  | nil => exact .nil
  | cons a t ih => exact .cons (h a (by simp)) (ih fun b hb => h b (by simp [hb]))

/-! ## C2: the required set after compilation -/

theorem nested_required_iff (p : Property) (hobj : p.data_type = DataType.Object)
    (hnd : (namesOf (p.properties.getD [])).Nodup)
    (hsub : ∀ x ∈ p.rec_required.getD [], x ∈ namesOf (p.properties.getD []))
    (y : String) :
    (y ∈ ((generate_prop_obj p).2).rec_required.getD [] ↔
      ∃ c ∈ p.properties.getD [], c.name = y ∧ c.required = true) := by
  cases hp : p.properties with
  | none =>
    rw [hp] at hsub
    rw [generate_prop_obj_snd, if_pos hobj]
    simp only [generate_nested_properties, hp]
    constructor
    · intro hmem
      have hmem2 := hsub y hmem
      simp [namesOf] at hmem2
    · rintro ⟨c, hc, -⟩
      exact absurd hc (by simp)
  | some cs =>
    rw [hp] at hsub hnd
    rw [generate_prop_obj_snd, if_pos hobj]
    simp only [generate_nested_properties, hp, rec_required_setRecRequired,
      nestedFold_acc, getD_recSyncMany]
    simp only [hp, Option.getD_some]
    simp only [Option.getD_some] at hsub hnd
    exact mem_syncMany_iff cs (p.rec_required.getD []) y hnd hsub

/-- C2 counterexample: the claim demands that after compiling a document type
with no properties and a stale `required` entry `"ghost"`, the required set
equals exactly the (empty) set of required child names. The loop at main.rs
737-745 only ever removes an entry while processing a property of the same
name, so the stale entry survives compilation. -/
theorem C2_counterexample :
    ((generate_json_object
        [{ name := "g", required := ["ghost"] }]).2.map DocumentType.required)
      = [["ghost"]] ∧
    ((([] : List Property).filter fun p => p.required).map Property.name) = [] ∧
    (["ghost"] : List String) ≠ [] := by
  refine ⟨rfl, rfl, by simp⟩

/-- C2 (amended): after every compile call the owning document type's required
list — and, for each `Object` property, that property's nested `rec_required`
list — contains exactly the names of its direct required children, *provided*
the direct children have pairwise distinct names and every entry already in
the required list names an existing child. (Stale entries naming no current
child are not removed, contrary to the original claim; see the
counterexample.) -/
theorem C2_amended_required_sync (docs : List DocumentType)
    (h : ∀ d ∈ docs, (namesOf d.properties).Nodup ∧
      (∀ x ∈ d.required, x ∈ namesOf d.properties) ∧
      ∀ p ∈ d.properties, p.data_type = DataType.Object →
        (namesOf (p.properties.getD [])).Nodup ∧
        ∀ x ∈ p.rec_required.getD [], x ∈ namesOf (p.properties.getD [])) :
    List.Forall₂ (fun d' d =>
      (∀ y, y ∈ d'.required ↔ ∃ p ∈ d.properties, p.name = y ∧ p.required = true) ∧
      List.Forall₂ (fun p' p => p.data_type = DataType.Object →
          ∀ y, y ∈ p'.rec_required.getD [] ↔
            ∃ c ∈ p.properties.getD [], c.name = y ∧ c.required = true)
        d'.properties d.properties)
      (generate_json_object docs).2 docs := by
  rw [generate_json_object_snd]
  apply forall₂_map_self
  intro d hd
  obtain ⟨hnd, hsub, hprops⟩ := h d hd
  constructor
  · intro y
    rw [generate_doc_obj_required]
    exact mem_syncMany_iff d.properties d.required y hnd hsub
  · rw [generate_doc_obj_properties]
    apply forall₂_map_self
    intro p hp hobj y
    obtain ⟨hnd2, hsub2⟩ := hprops p hp hobj
    exact nested_required_iff p hobj hnd2 hsub2 y

/-- Concrete document type for the C2 witness: two distinct properties, one
required, and an initial required list naming an existing child. -/
def c2doc : DocumentType :=
  { name := "t",
    properties := [Property.mk { name := "a", required := true },
      Property.mk { name := "b" }],
    required := ["b"] }

/-- Witness for C2 (amended) at `c2doc`. -/
theorem C2_amended_witness :
    (∀ d ∈ [c2doc],
      (namesOf d.properties).Nodup ∧
      (∀ x ∈ d.required, x ∈ namesOf d.properties) ∧
      ∀ p ∈ d.properties, p.data_type = DataType.Object →
        (namesOf (p.properties.getD [])).Nodup ∧
        ∀ x ∈ p.rec_required.getD [], x ∈ namesOf (p.properties.getD [])) ∧
    List.Forall₂ (fun d' d =>
      (∀ y, y ∈ d'.required ↔ ∃ p ∈ d.properties, p.name = y ∧ p.required = true) ∧
      List.Forall₂ (fun p' p => p.data_type = DataType.Object →
          ∀ y, y ∈ p'.rec_required.getD [] ↔
            ∃ c ∈ p.properties.getD [], c.name = y ∧ c.required = true)
        d'.properties d.properties)
      (generate_json_object [c2doc]).2 [c2doc] :=
  ⟨by decide, C2_amended_required_sync _ (by decide)⟩

/-! ## C7: compiling twice — supporting lemmas -/

theorem name_setRecRequired (p : Property) (rr : Option (List String)) :
    (p.setRecRequired rr).name = p.name := by
  cases p
  rfl

theorem required_setRecRequired (p : Property) (rr : Option (List String)) :
    (p.setRecRequired rr).required = p.required := by
  cases p
  rfl

theorem data_type_setRecRequired (p : Property) (rr : Option (List String)) :
    (p.setRecRequired rr).data_type = p.data_type := by
  cases p
  rfl

theorem properties_setRecRequired (p : Property) (rr : Option (List String)) :
    (p.setRecRequired rr).properties = p.properties := by
  cases p
  rfl

theorem min_properties_setRecRequired (p : Property) (rr : Option (List String)) :
    (p.setRecRequired rr).min_properties = p.min_properties := by
  cases p
  rfl

theorem max_properties_setRecRequired (p : Property) (rr : Option (List String)) :
    (p.setRecRequired rr).max_properties = p.max_properties := by
  cases p
  rfl

theorem comment_setRecRequired (p : Property) (rr : Option (List String)) :
    (p.setRecRequired rr).comment = p.comment := by
  cases p
  rfl

theorem setRecRequired_setRecRequired (p : Property) (a b : Option (List String)) :
    (p.setRecRequired a).setRecRequired b = p.setRecRequired b := by
  cases p
  rfl

theorem setRecRequired_self (p : Property) :
    p.setRecRequired p.rec_required = p := by
  cases p
  rfl

theorem emitScalars_setRecRequired (m : List (String × Json)) (p : Property)
    (rr : Option (List String)) :
    emitScalars m (p.setRecRequired rr) = emitScalars m p := by
  cases p
  rfl

theorem name_generate_prop_obj_snd (p : Property) :
    ((generate_prop_obj p).2).name = p.name := by
  rw [generate_prop_obj_snd]
  split
  · cases hp : p.properties with
    | none => simp [generate_nested_properties, hp]
    | some cs => simp [generate_nested_properties, hp, name_setRecRequired]
  · rfl

theorem required_generate_prop_obj_snd (p : Property) :
    ((generate_prop_obj p).2).required = p.required := by
  rw [generate_prop_obj_snd]
  split
  · cases hp : p.properties with
    | none => simp [generate_nested_properties, hp]
    | some cs => simp [generate_nested_properties, hp, required_setRecRequired]
  · rfl

theorem nestedFold_fst (cs : List Property) (m : List (String × Json))
    (acc acc' : Option (List String)) :
    (nestedFold cs m acc).1 = (nestedFold cs m acc').1 := by
  induction cs generalizing m acc acc' with
  | nil => rfl
  | cons c rest ih => simpa [nestedFold] using ih ..

theorem generate_nested_properties_idem (p : Property)
    (hnd : (namesOf (p.properties.getD [])).Nodup) :
    generate_nested_properties (generate_nested_properties p).2 =
      ((generate_nested_properties p).1, (generate_nested_properties p).2) := by
  cases hp : p.properties with
  | none => simp [generate_nested_properties, hp]
  | some cs =>
    rw [hp] at hnd
    simp only [Option.getD_some] at hnd
    have hfix : recSyncMany (recSyncMany p.rec_required cs) cs =
        recSyncMany p.rec_required cs := by
      apply recSyncMany_fixpoint
      intro c hc
      rw [getD_recSyncMany]
      constructor
      · intro hreq
        exact (mem_syncMany_mentioned cs (p.rec_required.getD []) c.name c hnd hc rfl).mpr hreq
      · intro hreq hmem
        have hmem2 := (mem_syncMany_mentioned cs (p.rec_required.getD [])
          c.name c hnd hc rfl).mp hmem
        rw [hreq] at hmem2
        cases hmem2
    simp only [generate_nested_properties, hp, properties_setRecRequired,
      rec_required_setRecRequired, nestedFold_acc]
    rw [nestedFold_fst cs [] (recSyncMany p.rec_required cs) p.rec_required,
      hfix, setRecRequired_setRecRequired]

theorem generate_prop_obj_idem (p : Property)
    (hnd : (namesOf (p.properties.getD [])).Nodup) :
    generate_prop_obj (generate_prop_obj p).2 =
      ((generate_prop_obj p).1, (generate_prop_obj p).2) := by
  by_cases hobj : p.data_type = DataType.Object
  · cases hp : p.properties with
    | none =>
      have h2 : (generate_prop_obj p).2 = p := by
        rw [generate_prop_obj_snd, if_pos hobj]
        simp [generate_nested_properties, hp]
      rw [h2]
      exact Prod.ext rfl h2
    | some cs =>
      have hidem := generate_nested_properties_idem p hnd
      have hsetp : (generate_nested_properties p).2 =
          p.setRecRequired (recSyncMany p.rec_required cs) := by
        simp only [generate_nested_properties, hp, nestedFold_acc]
      have hdt2 : ((generate_nested_properties p).2).data_type = DataType.Object := by
        rw [hsetp, data_type_setRecRequired, hobj]
      have hq2 : (generate_prop_obj p).2 = (generate_nested_properties p).2 := by
        rw [generate_prop_obj_snd, if_pos hobj]
      rw [hq2]
      have hsnd : (generate_prop_obj ((generate_nested_properties p).2)).2 =
          (generate_nested_properties p).2 := by
        rw [generate_prop_obj_snd, if_pos hdt2]
        exact congrArg Prod.snd hidem
      have hfst : (generate_prop_obj ((generate_nested_properties p).2)).1 =
          (generate_prop_obj p).1 := by
        simp only [generate_prop_obj, hidem]
        simp only [hsetp, data_type_setRecRequired, emitScalars_setRecRequired,
          min_properties_setRecRequired, max_properties_setRecRequired,
          comment_setRecRequired, rec_required_setRecRequired, hobj,
          eq_self_iff_true, if_true]
      calc generate_prop_obj ((generate_nested_properties p).2)
          = ((generate_prop_obj ((generate_nested_properties p).2)).1,
             (generate_prop_obj ((generate_nested_properties p).2)).2) := Prod.mk.eta.symm
        _ = ((generate_prop_obj p).1, (generate_nested_properties p).2) := by
            rw [hfst, hsnd]
  · have h2 : (generate_prop_obj p).2 = p := by
      rw [generate_prop_obj_snd, if_neg hobj]
    rw [h2]
    exact Prod.ext rfl h2

theorem docPropsRec_fst_idem (ps : List Property) (m : List (String × Json))
    (r r' : List String)
    (hn : ∀ p ∈ ps, (namesOf (p.properties.getD [])).Nodup) :
    (docPropsRec (ps.map fun p => (generate_prop_obj p).2) m r').1 =
      (docPropsRec ps m r).1 := by
  induction ps generalizing m r r' with
  | nil => rfl
  | cons p rest ih =>
    simp only [List.map_cons, docPropsRec]
    rw [congrArg Prod.fst (generate_prop_obj_idem p (hn p (by simp))),
      name_generate_prop_obj_snd]
    exact ih _ _ _ fun q hq => hn q (by simp [hq])

theorem props_map_idem (ps : List Property)
    (hn : ∀ p ∈ ps, (namesOf (p.properties.getD [])).Nodup) :
    (ps.map fun p => (generate_prop_obj p).2).map (fun p => (generate_prop_obj p).2) =
      ps.map fun p => (generate_prop_obj p).2 := by
  rw [List.map_map]
  apply List.map_congr_left
  intro p hp
  exact congrArg Prod.snd (generate_prop_obj_idem p (hn p hp))

theorem syncMany_map_fixpoint (ps : List Property) (r : List String)
    (hnd : (namesOf ps).Nodup) :
    syncMany (syncMany r ps) (ps.map fun p => (generate_prop_obj p).2) =
      syncMany r ps := by
  apply syncMany_fixpoint
  intro q hq
  rcases List.mem_map.mp hq with ⟨p, hp, rfl⟩
  rw [name_generate_prop_obj_snd, required_generate_prop_obj_snd]
  constructor
  · intro hreq
    exact (mem_syncMany_mentioned ps r p.name p hnd hp rfl).mpr hreq
  · intro hreq hmem
    have h2 := (mem_syncMany_mentioned ps r p.name p hnd hp rfl).mp hmem
    rw [h2] at hreq
    cases hreq

theorem generate_doc_obj_idem (d : DocumentType)
    (hnd : (namesOf d.properties).Nodup)
    (hn : ∀ p ∈ d.properties, (namesOf (p.properties.getD [])).Nodup) :
    generate_doc_obj (generate_doc_obj d).2 =
      ((generate_doc_obj d).1, (generate_doc_obj d).2) := by
  simp only [generate_doc_obj, docPropsRec_required, docPropsRec_props_pointwise]
  simp only [props_map_idem d.properties hn,
    syncMany_map_fixpoint d.properties d.required hnd]
  rw [docPropsRec_fst_idem d.properties [] d.required (syncMany d.required d.properties) hn]

/-! ## C7: compiling twice — the claim -/

/-- Concrete counterexample input for C7: two properties share the name `"x"`
(first not required, then required), plus a required `"y"`. -/
def c7doc : DocumentType :=
  { name := "d",
    properties := [Property.mk { name := "x" },
      Property.mk { name := "x", required := true },
      Property.mk { name := "y", required := true }] }

/-- C7 counterexample: compiling `c7doc` once ends with `required = ["x","y"]`
(the final `"x"` removal/re-append leaves `"x"` before `"y"`), but compiling
the resulting state again removes and re-appends `"x"` after `"y"`, emitting
`required: ["y","x"]` — the two serialized outputs differ byte-wise, refuting
idempotence for arbitrary trees. -/
theorem C7_counterexample :
    (generate_json_object (generate_json_object [c7doc]).2).1 ≠
      (generate_json_object [c7doc]).1 := by
  decide

/-- C7 (amended): compiling the same tree twice yields byte-identical output
and an identical mutated state, *provided* each document type's property names
are pairwise distinct and each property's nested children (when present) have
pairwise distinct names. (With duplicated property names the required list can
be reordered by the second compile; see the counterexample.) -/
theorem C7_amended_idempotent (docs : List DocumentType)
    (h : ∀ d ∈ docs, (namesOf d.properties).Nodup ∧
      ∀ p ∈ d.properties, (namesOf (p.properties.getD [])).Nodup) :
    generate_json_object (generate_json_object docs).2 = generate_json_object docs := by
  induction docs with
  | nil => rfl
  | cons d rest ih =>
    obtain ⟨hd1, hd2⟩ := h d (by simp)
    have hidem := generate_doc_obj_idem d hd1 hd2
    have hname : ((generate_doc_obj d).2).name = d.name := by
      simp [generate_doc_obj]
    simp only [generate_json_object]
    rw [ih fun d' hd' => h d' (by simp [hd']), congrArg Prod.fst hidem,
      congrArg Prod.snd hidem, hname]

/-- Witness for C7 (amended) at a concrete two-property document type. -/
theorem C7_amended_witness :
    (∀ d ∈ [c2doc], (namesOf d.properties).Nodup ∧
      ∀ p ∈ d.properties, (namesOf (p.properties.getD [])).Nodup) ∧
    generate_json_object (generate_json_object [c2doc]).2 = generate_json_object [c2doc] :=
  ⟨by decide, C7_amended_idempotent [c2doc] (by decide)⟩

/-! ## Per-key lookups into the compiled property objects -/

theorem lpo_type (p : Property) :
    Json.lookup (generate_prop_obj p).1 "type" = some (.str (typeName p.data_type)) := by
  by_cases hobj : p.data_type = DataType.Object <;>
    simp [generate_prop_obj, emitScalars, hobj, lookup_insertIf_ne, lookup_insertKV_ne,
      lookup_insertKV_self, Json.lookup]

theorem lpo_description (p : Property) :
    Json.lookup (generate_prop_obj p).1 "description" =
      if 0 < (p.description.map String.length).getD 0 then some (.str (p.description.getD ""))
      else none := by
  by_cases hobj : p.data_type = DataType.Object <;>
    simp [generate_prop_obj, emitScalars, hobj, lookup_insertIf_ne, lookup_insertIf_self,
      lookup_insertKV_ne, Json.lookup]

theorem lpo_minLength (p : Property) :
    Json.lookup (generate_prop_obj p).1 "minLength" =
      if 0 < p.min_length.getD 0 then some (.num (p.min_length.getD 0)) else none := by
  by_cases hobj : p.data_type = DataType.Object <;>
    simp [generate_prop_obj, emitScalars, hobj, lookup_insertIf_ne, lookup_insertIf_self,
      lookup_insertKV_ne, Json.lookup]

theorem lpo_maxLength (p : Property) :
    Json.lookup (generate_prop_obj p).1 "maxLength" =
      if 0 < p.max_length.getD 0 then some (.num (p.max_length.getD 0)) else none := by
  by_cases hobj : p.data_type = DataType.Object <;>
    simp [generate_prop_obj, emitScalars, hobj, lookup_insertIf_ne, lookup_insertIf_self,
      lookup_insertKV_ne, Json.lookup]

theorem lpo_pattern (p : Property) :
    Json.lookup (generate_prop_obj p).1 "pattern" =
      if 0 < (p.pattern.map String.length).getD 0 then some (.str (p.pattern.getD ""))
      else none := by
  by_cases hobj : p.data_type = DataType.Object <;>
    simp [generate_prop_obj, emitScalars, hobj, lookup_insertIf_ne, lookup_insertIf_self,
      lookup_insertKV_ne, Json.lookup]

theorem lpo_format (p : Property) :
    Json.lookup (generate_prop_obj p).1 "format" =
      if 0 < (p.format.map String.length).getD 0 then some (.str (p.format.getD ""))
      else none := by
  by_cases hobj : p.data_type = DataType.Object <;>
    simp [generate_prop_obj, emitScalars, hobj, lookup_insertIf_ne, lookup_insertIf_self,
      lookup_insertKV_ne, Json.lookup]

theorem lpo_minimum (p : Property) :
    Json.lookup (generate_prop_obj p).1 "minimum" =
      if 0 < p.minimum.getD 0 then some (.num (p.minimum.getD 0)) else none := by
  by_cases hobj : p.data_type = DataType.Object <;>
    simp [generate_prop_obj, emitScalars, hobj, lookup_insertIf_ne, lookup_insertIf_self,
      lookup_insertKV_ne, Json.lookup]

theorem lpo_maximum (p : Property) :
    Json.lookup (generate_prop_obj p).1 "maximum" =
      if 0 < p.maximum.getD 0 then some (.num (p.maximum.getD 0)) else none := by
  by_cases hobj : p.data_type = DataType.Object <;>
    simp [generate_prop_obj, emitScalars, hobj, lookup_insertIf_ne, lookup_insertIf_self,
      lookup_insertKV_ne, Json.lookup]

theorem lpo_byteArray (p : Property) :
    Json.lookup (generate_prop_obj p).1 "byteArray" =
      if p.byte_array.isSome then some (.bool (p.byte_array.getD false)) else none := by
  by_cases hobj : p.data_type = DataType.Object <;>
    simp [generate_prop_obj, emitScalars, hobj, lookup_insertIf_ne, lookup_insertIf_self,
      lookup_insertKV_ne, Json.lookup]

theorem lpo_minItems (p : Property) :
    Json.lookup (generate_prop_obj p).1 "minItems" =
      if 0 < p.min_items.getD 0 then some (.num (p.min_items.getD 0)) else none := by
  by_cases hobj : p.data_type = DataType.Object <;>
    simp [generate_prop_obj, emitScalars, hobj, lookup_insertIf_ne, lookup_insertIf_self,
      lookup_insertKV_ne, Json.lookup]

theorem lpo_maxItems (p : Property) :
    Json.lookup (generate_prop_obj p).1 "maxItems" =
      if 0 < p.max_items.getD 0 then some (.num (p.max_items.getD 0)) else none := by
  by_cases hobj : p.data_type = DataType.Object <;>
    simp [generate_prop_obj, emitScalars, hobj, lookup_insertIf_ne, lookup_insertIf_self,
      lookup_insertKV_ne, Json.lookup]

theorem lpo_properties (p : Property) :
    Json.lookup (generate_prop_obj p).1 "properties" =
      if p.data_type = DataType.Object then some (.obj (generate_nested_properties p).1)
      else none := by
  by_cases hobj : p.data_type = DataType.Object <;>
    simp [generate_prop_obj, emitScalars, hobj, lookup_insertIf_ne, lookup_insertIf_self,
      lookup_insertKV_ne, lookup_insertKV_self, Json.lookup]

theorem lpo_minProperties (p : Property) :
    Json.lookup (generate_prop_obj p).1 "minProperties" =
      if 0 < p.min_properties.getD 0 then some (.num (p.min_properties.getD 0)) else none := by
  by_cases hobj : p.data_type = DataType.Object <;>
    simp [generate_prop_obj, emitScalars, hobj, lookup_insertIf_ne, lookup_insertIf_self,
      lookup_insertKV_ne, Json.lookup]

theorem lpo_maxProperties (p : Property) :
    Json.lookup (generate_prop_obj p).1 "maxProperties" =
      if 0 < p.max_properties.getD 0 then some (.num (p.max_properties.getD 0)) else none := by
  by_cases hobj : p.data_type = DataType.Object <;>
    simp [generate_prop_obj, emitScalars, hobj, lookup_insertIf_ne, lookup_insertIf_self,
      lookup_insertKV_ne, Json.lookup]

theorem lpo_required (p : Property) :
    Json.lookup (generate_prop_obj p).1 "required" =
      if 0 < (((generate_prop_obj p).2).rec_required.map List.length).getD 0 then
        some (.arr (((generate_prop_obj p).2.rec_required.getD []).map Json.str))
      else none := by
  by_cases hobj : p.data_type = DataType.Object <;>
    simp [generate_prop_obj, emitScalars, hobj, lookup_insertIf_ne, lookup_insertIf_self,
      lookup_insertKV_ne, Json.lookup]

theorem lpo_additionalProperties (p : Property) :
    Json.lookup (generate_prop_obj p).1 "additionalProperties" =
      if p.data_type = DataType.Object then some (.bool false) else none := by
  by_cases hobj : p.data_type = DataType.Object <;>
    simp [generate_prop_obj, emitScalars, hobj, lookup_insertIf_ne, lookup_insertIf_self,
      lookup_insertKV_ne, Json.lookup]

theorem lpo_comment (p : Property) :
    Json.lookup (generate_prop_obj p).1 "$comment" =
      if 0 < (p.comment.map String.length).getD 0 then some (.str (p.comment.getD ""))
      else none := by
  by_cases hobj : p.data_type = DataType.Object <;>
    simp [generate_prop_obj, emitScalars, hobj, lookup_insertIf_ne, lookup_insertIf_self,
      lookup_insertKV_ne, Json.lookup]

theorem lno_type (c : Property) :
    Json.lookup (generate_nested_prop_obj c) "type" = some (.str (typeName c.data_type)) := by
  by_cases hobj : c.data_type = DataType.Object <;>
    simp [generate_nested_prop_obj, emitScalars, hobj, lookup_insertIf_ne, lookup_insertKV_ne,
      lookup_insertKV_self, Json.lookup]

theorem lno_description (c : Property) :
    Json.lookup (generate_nested_prop_obj c) "description" =
      if 0 < (c.description.map String.length).getD 0 then some (.str (c.description.getD ""))
      else none := by
  by_cases hobj : c.data_type = DataType.Object <;>
    simp [generate_nested_prop_obj, emitScalars, hobj, lookup_insertIf_ne, lookup_insertIf_self,
      lookup_insertKV_ne, Json.lookup]

theorem lno_minLength (c : Property) :
    Json.lookup (generate_nested_prop_obj c) "minLength" =
      if 0 < c.min_length.getD 0 then some (.num (c.min_length.getD 0)) else none := by
  by_cases hobj : c.data_type = DataType.Object <;>
    simp [generate_nested_prop_obj, emitScalars, hobj, lookup_insertIf_ne, lookup_insertIf_self,
      lookup_insertKV_ne, Json.lookup]

theorem lno_maxLength (c : Property) :
    Json.lookup (generate_nested_prop_obj c) "maxLength" =
      if 0 < c.max_length.getD 0 then some (.num (c.max_length.getD 0)) else none := by
  by_cases hobj : c.data_type = DataType.Object <;>
    simp [generate_nested_prop_obj, emitScalars, hobj, lookup_insertIf_ne, lookup_insertIf_self,
      lookup_insertKV_ne, Json.lookup]

theorem lno_pattern (c : Property) :
    Json.lookup (generate_nested_prop_obj c) "pattern" =
      if 0 < (c.pattern.map String.length).getD 0 then some (.str (c.pattern.getD ""))
      else none := by
  by_cases hobj : c.data_type = DataType.Object <;>
    simp [generate_nested_prop_obj, emitScalars, hobj, lookup_insertIf_ne, lookup_insertIf_self,
      lookup_insertKV_ne, Json.lookup]

theorem lno_format (c : Property) :
    Json.lookup (generate_nested_prop_obj c) "format" =
      if 0 < (c.format.map String.length).getD 0 then some (.str (c.format.getD ""))
      else none := by
  by_cases hobj : c.data_type = DataType.Object <;>
    simp [generate_nested_prop_obj, emitScalars, hobj, lookup_insertIf_ne, lookup_insertIf_self,
      lookup_insertKV_ne, Json.lookup]

theorem lno_minimum (c : Property) :
    Json.lookup (generate_nested_prop_obj c) "minimum" =
      if 0 < c.minimum.getD 0 then some (.num (c.minimum.getD 0)) else none := by
  by_cases hobj : c.data_type = DataType.Object <;>
    simp [generate_nested_prop_obj, emitScalars, hobj, lookup_insertIf_ne, lookup_insertIf_self,
      lookup_insertKV_ne, Json.lookup]

theorem lno_maximum (c : Property) :
    Json.lookup (generate_nested_prop_obj c) "maximum" =
      if 0 < c.maximum.getD 0 then some (.num (c.maximum.getD 0)) else none := by
  by_cases hobj : c.data_type = DataType.Object <;>
    simp [generate_nested_prop_obj, emitScalars, hobj, lookup_insertIf_ne, lookup_insertIf_self,
      lookup_insertKV_ne, Json.lookup]

theorem lno_byteArray (c : Property) :
    Json.lookup (generate_nested_prop_obj c) "byteArray" =
      if c.byte_array.isSome then some (.bool (c.byte_array.getD false)) else none := by
  by_cases hobj : c.data_type = DataType.Object <;>
    simp [generate_nested_prop_obj, emitScalars, hobj, lookup_insertIf_ne, lookup_insertIf_self,
      lookup_insertKV_ne, Json.lookup]

theorem lno_minItems (c : Property) :
    Json.lookup (generate_nested_prop_obj c) "minItems" =
      if 0 < c.min_items.getD 0 then some (.num (c.min_items.getD 0)) else none := by
  by_cases hobj : c.data_type = DataType.Object <;>
    simp [generate_nested_prop_obj, emitScalars, hobj, lookup_insertIf_ne, lookup_insertIf_self,
      lookup_insertKV_ne, Json.lookup]

theorem lno_maxItems (c : Property) :
    Json.lookup (generate_nested_prop_obj c) "maxItems" =
      if 0 < c.max_items.getD 0 then some (.num (c.max_items.getD 0)) else none := by
  by_cases hobj : c.data_type = DataType.Object <;>
    simp [generate_nested_prop_obj, emitScalars, hobj, lookup_insertIf_ne, lookup_insertIf_self,
      lookup_insertKV_ne, Json.lookup]

theorem lno_properties (c : Property) :
    Json.lookup (generate_nested_prop_obj c) "properties" =
      if c.data_type = DataType.Object then some (.obj []) else none := by
  by_cases hobj : c.data_type = DataType.Object <;>
    simp [generate_nested_prop_obj, emitScalars, hobj, lookup_insertIf_ne, lookup_insertIf_self,
      lookup_insertKV_ne, Json.lookup]

theorem lno_minProperties (c : Property) :
    Json.lookup (generate_nested_prop_obj c) "minProperties" =
      if 0 < c.min_properties.getD 0 then some (.num (c.min_properties.getD 0)) else none := by
  by_cases hobj : c.data_type = DataType.Object <;>
    simp [generate_nested_prop_obj, emitScalars, hobj, lookup_insertIf_ne, lookup_insertIf_self,
      lookup_insertKV_ne, Json.lookup]

theorem lno_maxProperties (c : Property) :
    Json.lookup (generate_nested_prop_obj c) "maxProperties" =
      if 0 < c.max_properties.getD 0 then some (.num (c.max_properties.getD 0)) else none := by
  by_cases hobj : c.data_type = DataType.Object <;>
    simp [generate_nested_prop_obj, emitScalars, hobj, lookup_insertIf_ne, lookup_insertIf_self,
      lookup_insertKV_ne, Json.lookup]

theorem lno_additionalProperties (c : Property) :
    Json.lookup (generate_nested_prop_obj c) "additionalProperties" =
      if c.data_type = DataType.Object then some (.bool false) else none := by
  by_cases hobj : c.data_type = DataType.Object <;>
    simp [generate_nested_prop_obj, emitScalars, hobj, lookup_insertIf_ne, lookup_insertIf_self,
      lookup_insertKV_ne, Json.lookup]

theorem lno_comment (c : Property) :
    Json.lookup (generate_nested_prop_obj c) "$comment" =
      if 0 < (c.comment.map String.length).getD 0 then some (.str (c.comment.getD ""))
      else none := by
  by_cases hobj : c.data_type = DataType.Object <;>
    simp [generate_nested_prop_obj, emitScalars, hobj, lookup_insertIf_ne, lookup_insertIf_self,
      lookup_insertKV_ne, Json.lookup]

theorem lno_required (c : Property) :
    Json.lookup (generate_nested_prop_obj c) "required" = none := by
  by_cases hobj : c.data_type = DataType.Object <;>
    simp [generate_nested_prop_obj, emitScalars, hobj, lookup_insertIf_ne, lookup_insertIf_self,
      lookup_insertKV_ne, Json.lookup]

/-! ## The compiled nested-properties map as an explicit association list -/

theorem insertKV_same_value (m : List (String × Json)) (k : String) (v : Json) :
    insertKV (insertKV m k v) k v = insertKV m k v := by
  induction m with
  | nil => simp [insertKV]
  | cons hd tl ih =>
    obtain ⟨k', v'⟩ := hd
    by_cases hk : k' = k
    · subst hk
      simp [insertKV]
    · simp [insertKV, hk, ih]

theorem nestedFold_fst_map (cs : List Property) (m : List (String × Json))
    (acc : Option (List String)) (hnd : (namesOf cs).Nodup)
    (hfresh : ∀ c ∈ cs, ∀ w, (c.name, w) ∉ m) :
    (nestedFold cs m acc).1 =
      m ++ cs.map fun c => (c.name, Json.obj (generate_nested_prop_obj c)) := by
  induction cs generalizing m acc with
  | nil => simp [nestedFold]
  | cons c rest ih =>
    rw [namesOf, List.map_cons, List.nodup_cons] at hnd
    rw [nestedFold, insertKV_same_value,
      insertKV_fresh m c.name _ (hfresh c (by simp)), ih _ _ hnd.2 ?fresh]
    · simp
    case fresh =>
      intro q hq w hw
      rcases List.mem_append.mp hw with hw | hw
      · exact hfresh q (by simp [hq]) w hw
      · simp only [List.mem_singleton, Prod.mk.injEq] at hw
        apply hnd.1
        rw [← hw.1]
        exact List.mem_map_of_mem _ hq

theorem generate_nested_properties_map (p : Property) (cs : List Property)
    (hp : p.properties = some cs) (hnd : (namesOf cs).Nodup) :
    (generate_nested_properties p).1 =
      cs.map fun c => (c.name, Json.obj (generate_nested_prop_obj c)) := by
  simp only [generate_nested_properties, hp]
  simpa using nestedFold_fst_map cs [] p.rec_required hnd (by simp)

/-! ## C3: nesting in the compiled output -/

/-- The inner (depth-two) property of the C3 counterexample. -/
def c3inner : Property := .mk { name := "c" }

/-- A nested `Object` child that itself carries a property list: the claimed
recursive compilation would emit its `properties` map with key `"c"`. -/
def c3child : Property :=
  .mk { name := "b", data_type := .Object, properties := some [c3inner] }

/-- C3 counterexample: for the nested `Object` child `c3child` the compiler
emits `properties: {}` (main.rs 838) although compiling its property list with
the compiler's own one-level rules yields a non-empty map with key `"c"` — so
nested Object property lists are *not* compiled recursively and depth-two
properties are discarded. -/
theorem C3_counterexample :
    Json.lookup (generate_nested_prop_obj c3child) "properties" = some (Json.obj []) ∧
    (generate_nested_properties c3child).1 =
      [("c", Json.obj [("type", Json.str "string")])] ∧
    Json.lookup (generate_nested_prop_obj c3child) "properties" ≠
      some (Json.obj (generate_nested_properties c3child).1) := by
  refine ⟨rfl, rfl, ?_⟩
  intro h
  rw [show Json.lookup (generate_nested_prop_obj c3child) "properties" =
    some (Json.obj []) from rfl] at h
  rw [show (generate_nested_properties c3child).1 =
    [("c", Json.obj [("type", Json.str "string")])] from rfl] at h
  simp at h

/-- C3 (amended): the compiler compiles exactly one level of Object nesting:
for a top-level `Object` property the emitted `properties` key holds the map of
its children, each compiled with the one-level nested emission rules, and
`additionalProperties: false` is emitted unconditionally; a *nested* `Object`
child is emitted with `properties: {}` — its own property list is discarded
instead of recursively compiled — and with `additionalProperties: false`
unconditionally. -/
theorem C3_amended_one_level (p : Property) (cs : List Property)
    (hobj : p.data_type = DataType.Object) (hp : p.properties = some cs)
    (hnd : (namesOf cs).Nodup) :
    Json.lookup (generate_prop_obj p).1 "properties" =
      some (Json.obj (cs.map fun c => (c.name, Json.obj (generate_nested_prop_obj c)))) ∧
    Json.lookup (generate_prop_obj p).1 "additionalProperties" = some (Json.bool false) ∧
    ∀ c ∈ cs, c.data_type = DataType.Object →
      Json.lookup (generate_nested_prop_obj c) "properties" = some (Json.obj []) ∧
      Json.lookup (generate_nested_prop_obj c) "additionalProperties" =
        some (Json.bool false) := by
  refine ⟨?_, ?_, ?_⟩
  · rw [lpo_properties, if_pos hobj, generate_nested_properties_map p cs hp hnd]
  · rw [lpo_additionalProperties, if_pos hobj]
  · intro c _ hcobj
    exact ⟨by rw [lno_properties, if_pos hcobj],
      by rw [lno_additionalProperties, if_pos hcobj]⟩

/-- The Object property used as the C3 witness input: two children with
distinct names, one of them itself an Object. -/
def c3parent : Property :=
  .mk { name := "a", data_type := .Object, properties := some [c3child, c3inner] }

/-- Witness for C3 (amended) at `c3parent`. -/
theorem C3_amended_witness :
    (c3parent.data_type = DataType.Object ∧ c3parent.properties = some [c3child, c3inner] ∧
      (namesOf [c3child, c3inner]).Nodup) ∧
    Json.lookup (generate_prop_obj c3parent).1 "properties" =
      some (Json.obj ([c3child, c3inner].map fun c =>
        (c.name, Json.obj (generate_nested_prop_obj c)))) :=
  ⟨⟨rfl, rfl, by decide⟩,
    (C3_amended_one_level c3parent [c3child, c3inner] rfl rfl (by decide)).1⟩

/-! ## C1: the round trip — side conditions

The round trip can only hold for trees whose optional fields survive the
compiler's omission rules and whose shape the importer actually reconstructs;
the predicates below collect those conditions. -/

/-- A `u32` constraint field survives the round trip iff absent or positive
(zero is omitted by the zero-omission quirk; the claim already excludes it). -/
def natFieldOK : Option Nat → Prop
  | none => True
  | some v => 0 < v ∧ v < 2 ^ 32

instance : (o : Option Nat) → Decidable (natFieldOK o)
  | none => .isTrue trivial
  | some v => inferInstanceAs (Decidable (0 < v ∧ v < 2 ^ 32))

/-- An `i32` constraint field survives the round trip iff absent or positive
(the compiler omits any value `≤ 0`, not only the zero default). -/
def intFieldOK : Option Int → Prop
  | none => True
  | some v => 0 < v ∧ v < 2 ^ 31

instance : (o : Option Int) → Decidable (intFieldOK o)
  | none => .isTrue trivial
  | some v => inferInstanceAs (Decidable (0 < v ∧ v < 2 ^ 31))

/-- A string field survives the round trip iff absent or non-empty. -/
def strFieldOK : Option String → Prop
  | none => True
  | some s => s ≠ ""

instance : (o : Option String) → Decidable (strFieldOK o)
  | none => .isTrue trivial
  | some s => inferInstanceAs (Decidable (s ≠ ""))

/-- All scalar constraint fields of a property are non-default-valued. -/
def scalarsOK (p : Property) : Prop :=
  strFieldOK p.description ∧ strFieldOK p.comment ∧ natFieldOK p.min_length ∧
  natFieldOK p.max_length ∧ strFieldOK p.pattern ∧ strFieldOK p.format ∧
  intFieldOK p.minimum ∧ intFieldOK p.maximum ∧ natFieldOK p.min_items ∧
  natFieldOK p.max_items ∧ natFieldOK p.min_properties ∧ natFieldOK p.max_properties

instance (p : Property) : Decidable (scalarsOK p) :=
  inferInstanceAs (Decidable (_ ∧ _))

/-- A nested child the importer can reconstruct: non-default scalar fields and
no deeper nesting (the importer never reads a nested child's own `properties`,
`rec_required` or `additional_properties`). -/
def goodNested (c : Property) : Prop :=
  scalarsOK c ∧ c.properties.isNone = true ∧ c.rec_required.isNone = true ∧
    c.additional_properties.isNone = true

instance (c : Property) : Decidable (goodNested c) :=
  inferInstanceAs (Decidable (_ ∧ _))

/-- A top-level property the importer can reconstruct: non-default scalar
fields, pristine `rec_required` / `additional_properties`, and a nested list
present exactly for `Object` with distinct child names and reconstructible
children. -/
def goodProp (p : Property) : Prop :=
  scalarsOK p ∧ p.rec_required.isNone = true ∧ p.additional_properties.isNone = true ∧
  (p.data_type = DataType.Object → p.properties.isSome = true ∧
    (namesOf (p.properties.getD [])).Nodup ∧ ∀ c ∈ p.properties.getD [], goodNested c) ∧
  (p.data_type ≠ DataType.Object → p.properties.isNone = true)

instance (p : Property) : Decidable (goodProp p) :=
  inferInstanceAs (Decidable (_ ∧ _))

/-- A document type the importer can reconstruct: distinct property names, a
pristine derived `required` list, the constant `additionalProperties`, a
comment only in the presence of indices (see C6), and reconstructible
properties. -/
def goodDoc (d : DocumentType) : Prop :=
  (namesOf d.properties).Nodup ∧ d.required = [] ∧ d.additionalProperties = false ∧
  (d.comment = "" ∨ d.indices ≠ []) ∧ ∀ p ∈ d.properties, goodProp p

instance (d : DocumentType) : Decidable (goodDoc d) :=
  inferInstanceAs (Decidable (_ ∧ _))

/-- A document-type list the importer can reconstruct (distinct names, since
the real importer goes through a `HashMap` keyed by name). -/
def goodDocs (docs : List DocumentType) : Prop :=
  (docs.map DocumentType.name).Nodup ∧ ∀ d ∈ docs, goodDoc d

instance (docs : List DocumentType) : Decidable (goodDocs docs) :=
  inferInstanceAs (Decidable (_ ∧ _))

/-! ### Scalar field reconstruction -/

theorem bind_asBool_ofOpt (o : Option Bool) :
    ((if o.isSome then some (Json.bool (o.getD false)) else none).bind Json.asBool) = o := by
  cases o <;> simp [Json.asBool]

theorem length_pos_of_ne_empty (s : String) (h : s ≠ "") : 0 < s.length := by
  cases s with
  | mk l =>
    cases l with
    | nil => exact absurd rfl h
    | cons a t => simp [String.length]

theorem bind_asStr_ofOpt (o : Option String) (h : strFieldOK o) :
    ((if 0 < (o.map String.length).getD 0 then some (Json.str (o.getD "")) else none).bind
      Json.asStr) = o := by
  cases o with
  | none => simp
  | some s =>
    have hne : s ≠ "" := h
    simp [Json.asStr, length_pos_of_ne_empty s hne]

theorem bind_asU64_ofOpt (o : Option Nat) (h : natFieldOK o) :
    (((if 0 < o.getD 0 then some (Json.num (o.getD 0)) else none).bind Json.asU64).map
      toU32) = o := by
  cases o with
  | none => simp
  | some v =>
    obtain ⟨hv0, hv32⟩ := h
    have h64 : (v : Int) < 2 ^ 64 := by exact_mod_cast lt_trans hv32 (by norm_num)
    have hz : (0 : Int) ≤ (v : Int) := Int.natCast_nonneg v
    have hu : Json.asU64 (Json.num (v : Int)) = some v := by
      rw [Json.asU64, if_pos ⟨hz, h64⟩]
      simp
    rw [Option.getD_some, if_pos hv0, Option.some_bind, hu]
    have hmod : toU32 v = v := Nat.mod_eq_of_lt hv32
    simp [hmod]

theorem toI32_small (v : Int) (h0 : 0 ≤ v) (h : v < 2 ^ 31) : toI32 v = v := by
  rw [toI32, Int.emod_eq_of_lt (by omega) (by omega)]
  omega

theorem bind_asI64_ofOpt (o : Option Int) (h : intFieldOK o) :
    (((if 0 < o.getD 0 then some (Json.num (o.getD 0)) else none).bind Json.asI64).map
      toI32) = o := by
  cases o with
  | none => simp
  | some v =>
    obtain ⟨hv0, hv31⟩ := h
    have hi : Json.asI64 (Json.num v) = some v := by
      rw [Json.asI64, if_pos ⟨by omega, by omega⟩]
    rw [Option.getD_some, if_pos hv0, Option.some_bind, hi]
    simp [toI32_small v (le_of_lt hv0) hv31]

theorem readScalars_prop (p : Property) (hsc : scalarsOK p) :
    readScalars (generate_prop_obj p).1 = ⟨p.byte_array, p.description, p.comment,
      p.min_length, p.max_length, p.pattern, p.format, p.minimum, p.maximum,
      p.min_items, p.max_items, p.min_properties, p.max_properties⟩ := by
  obtain ⟨hdesc, hcom, hml, hxl, hpat, hfmt, hmin, hmax, hmi, hma, hmp, hxp⟩ := hsc
  rw [readScalars]
  rw [lpo_byteArray, lpo_description, lpo_comment, lpo_minLength, lpo_maxLength,
    lpo_pattern, lpo_format, lpo_minimum, lpo_maximum, lpo_minItems, lpo_maxItems,
    lpo_minProperties, lpo_maxProperties]
  rw [bind_asBool_ofOpt, bind_asStr_ofOpt _ hdesc, bind_asStr_ofOpt _ hcom,
    bind_asU64_ofOpt _ hml, bind_asU64_ofOpt _ hxl, bind_asStr_ofOpt _ hpat,
    bind_asStr_ofOpt _ hfmt, bind_asI64_ofOpt _ hmin, bind_asI64_ofOpt _ hmax,
    bind_asU64_ofOpt _ hmi, bind_asU64_ofOpt _ hma, bind_asU64_ofOpt _ hmp,
    bind_asU64_ofOpt _ hxp]

theorem readScalars_nested (c : Property) (hsc : scalarsOK c) :
    readScalars (generate_nested_prop_obj c) = ⟨c.byte_array, c.description, c.comment,
      c.min_length, c.max_length, c.pattern, c.format, c.minimum, c.maximum,
      c.min_items, c.max_items, c.min_properties, c.max_properties⟩ := by
  obtain ⟨hdesc, hcom, hml, hxl, hpat, hfmt, hmin, hmax, hmi, hma, hmp, hxp⟩ := hsc
  rw [readScalars]
  rw [lno_byteArray, lno_description, lno_comment, lno_minLength, lno_maxLength,
    lno_pattern, lno_format, lno_minimum, lno_maximum, lno_minItems, lno_maxItems,
    lno_minProperties, lno_maxProperties]
  rw [bind_asBool_ofOpt, bind_asStr_ofOpt _ hdesc, bind_asStr_ofOpt _ hcom,
    bind_asU64_ofOpt _ hml, bind_asU64_ofOpt _ hxl, bind_asStr_ofOpt _ hpat,
    bind_asStr_ofOpt _ hfmt, bind_asI64_ofOpt _ hmin, bind_asI64_ofOpt _ hmax,
    bind_asU64_ofOpt _ hmi, bind_asU64_ofOpt _ hma, bind_asU64_ofOpt _ hmp,
    bind_asU64_ofOpt _ hxp]

/-! ### The reconstructed `required` flags -/

theorem any_str_mem (L : List String) (n : String) :
    ((L.map Json.str).any fun v =>
      match v with | .str s => s == n | _ => false) = true ↔ n ∈ L := by
  induction L with
  | nil => simp
  | cons a t ih =>
    simp only [List.map_cons, List.any_cons, Bool.or_eq_true, ih, List.mem_cons, beq_iff_eq]
    rw [eq_comm]

theorem importRequiredFlag_iff (obj : List (String × Json)) (L : List String) (n : String)
    (hl : Json.lookup obj "required" =
      if L = [] then none else some (.arr (L.map Json.str))) :
    (importRequiredFlag obj n = true ↔ n ∈ L) := by
  by_cases hL : L = []
  · subst hL
    simp only [if_pos rfl] at hl
    simp [importRequiredFlag, hl]
  · rw [if_neg hL] at hl
    simp only [importRequiredFlag, hl]
    exact any_str_mem L n

theorem name_inj (ps : List Property) (hnd : (namesOf ps).Nodup) (p q : Property)
    (hp : p ∈ ps) (hq : q ∈ ps) (h : p.name = q.name) : p = q := by
  have hnd' : (ps.map Property.name).Nodup := hnd
  exact List.inj_on_of_nodup_map hnd' hp hq h

theorem flag_eq_required (obj : List (String × Json)) (ps : List Property) (p : Property)
    (hl : Json.lookup obj "required" =
      if syncMany [] ps = [] then none else some (.arr ((syncMany [] ps).map Json.str)))
    (hp : p ∈ ps) (hnd : (namesOf ps).Nodup) :
    importRequiredFlag obj p.name = p.required := by
  have hiff := importRequiredFlag_iff obj (syncMany [] ps) p.name hl
  have hchar := mem_syncMany_iff ps [] p.name hnd (by simp)
  cases hflag : importRequiredFlag obj p.name with
  | true =>
    obtain ⟨q, hq, hqn, hqr⟩ := hchar.mp (hiff.mp hflag)
    have hqp : q = p := name_inj ps hnd q p hq hp hqn
    rw [← hqp, hqr]
  | false =>
    cases hr : p.required with
    | false => rfl
    | true =>
      exact absurd (hiff.mpr (hchar.mpr ⟨p, hp, rfl, hr⟩)) (by simp [hflag])

theorem lookup_required_object (p : Property) (cs : List Property)
    (hobj : p.data_type = DataType.Object) (hp : p.properties = some cs)
    (hrr : p.rec_required = none) :
    Json.lookup (generate_prop_obj p).1 "required" =
      if syncMany [] cs = [] then none
      else some (.arr ((syncMany [] cs).map Json.str)) := by
  rw [lpo_required]
  have h2 : (generate_prop_obj p).2.rec_required = recSyncMany none cs := by
    rw [generate_prop_obj_snd, if_pos hobj]
    simp only [generate_nested_properties, hp, rec_required_setRecRequired,
      nestedFold_acc, hrr]
  have h3 : (recSyncMany none cs).getD [] = syncMany [] cs := by
    simpa using getD_recSyncMany none cs
  have h4 : ((recSyncMany none cs).map List.length).getD 0 = (syncMany [] cs).length := by
    rw [← h3]
    cases recSyncMany none cs <;> simp
  rw [h2, h3, h4]
  by_cases hL : syncMany [] cs = []
  · simp [hL]
  · rw [if_pos (List.length_pos.mpr hL), if_neg hL]

/-! ### Per-key lookups into the compiled document object -/

theorem ldo_type (d : DocumentType) :
    Json.lookup (generate_doc_obj d).1 "type" = some (.str "object") := by
  simp [generate_doc_obj, lookup_insertIf_ne, lookup_insertKV_ne, lookup_insertKV_self,
    Json.lookup]

theorem ldo_properties (d : DocumentType) :
    Json.lookup (generate_doc_obj d).1 "properties" =
      some (.obj (docPropsRec d.properties [] d.required).1) := by
  simp [generate_doc_obj, lookup_insertIf_ne, lookup_insertKV_ne, lookup_insertKV_self,
    Json.lookup]

theorem ldo_indices (d : DocumentType) :
    Json.lookup (generate_doc_obj d).1 "indices" =
      if d.indices ≠ [] then some (.arr (d.indices.map generate_index_obj)) else none := by
  simp [generate_doc_obj, lookup_insertIf_ne, lookup_insertIf_self, lookup_insertKV_ne,
    Json.lookup]

theorem ldo_required (d : DocumentType) :
    Json.lookup (generate_doc_obj d).1 "required" =
      if syncMany d.required d.properties ≠ [] then
        some (.arr ((syncMany d.required d.properties).map Json.str))
      else none := by
  simp [generate_doc_obj, lookup_insertIf_ne, lookup_insertIf_self, lookup_insertKV_ne,
    Json.lookup, docPropsRec_required]

theorem ldo_comment (d : DocumentType) :
    Json.lookup (generate_doc_obj d).1 "$comment" =
      if 0 < d.comment.length then some (.str d.comment) else none := by
  simp [generate_doc_obj, lookup_insertIf_ne, lookup_insertIf_self, lookup_insertKV_ne,
    Json.lookup]

theorem lookup_doc_required (d : DocumentType) (hreq0 : d.required = []) :
    Json.lookup (generate_doc_obj d).1 "required" =
      if syncMany [] d.properties = [] then none
      else some (.arr ((syncMany [] d.properties).map Json.str)) := by
  rw [ldo_required, hreq0]
  by_cases hL : syncMany [] d.properties = []
  · simp [hL]
  · simp [hL]

/-! ### Property-level round trips -/

theorem importNestedProperty_roundtrip (prop_obj : List (String × Json)) (c : Property)
    (hflag : importRequiredFlag prop_obj c.name = c.required)
    (hg : goodNested c) :
    importNestedProperty prop_obj c.name (generate_nested_prop_obj c) = .ok c := by
  obtain ⟨hsc, hpn, hrr, hap⟩ := hg
  have hdt : importDataTypeField (generate_nested_prop_obj c) = .ok c.data_type := by
    rw [importDataTypeField, lno_type]
    cases c.data_type <;> rfl
  have hrs := readScalars_nested c hsc
  rw [Option.isNone_iff_eq_none] at hpn hrr hap
  simp only [importNestedProperty, hdt, hrs, hflag]
  rw [← hpn, ← hrr, ← hap]
  obtain ⟨f⟩ := c
  rfl

theorem importNestedList_roundtrip (prop_obj : List (String × Json)) (cs : List Property)
    (hflag : ∀ c ∈ cs, importRequiredFlag prop_obj c.name = c.required)
    (hg : ∀ c ∈ cs, goodNested c) :
    importNestedList prop_obj
      (cs.map fun c => (c.name, Json.obj (generate_nested_prop_obj c))) = .ok cs := by
  induction cs with
  | nil => rfl
  | cons c rest ih =>
    simp only [List.map_cons, importNestedList]
    rw [importNestedProperty_roundtrip prop_obj c (hflag c (by simp)) (hg c (by simp)),
      ih (fun q hq => hflag q (by simp [hq])) (fun q hq => hg q (by simp [hq]))]

theorem importProperty_roundtrip (doc_obj : List (String × Json)) (p : Property)
    (hflag : importRequiredFlag doc_obj p.name = p.required)
    (hg : goodProp p) :
    importProperty doc_obj p.name (.obj (generate_prop_obj p).1) = .ok p := by
  obtain ⟨hsc, hrr, hap, hObj, hnObj⟩ := hg
  have hdt : importDataTypeField (generate_prop_obj p).1 = .ok p.data_type := by
    rw [importDataTypeField, lpo_type]
    cases p.data_type <;> rfl
  have hrs := readScalars_prop p hsc
  rw [Option.isNone_iff_eq_none] at hrr hap
  by_cases hobj : p.data_type = DataType.Object
  · obtain ⟨hps, hnd0, hgn0⟩ := hObj hobj
    obtain ⟨cs, hcs⟩ := Option.isSome_iff_exists.mp hps
    have hnd : (namesOf cs).Nodup := by
      rw [hcs] at hnd0
      simpa using hnd0
    have hgn : ∀ x ∈ cs, goodNested x := by
      rw [hcs] at hgn0
      simpa using hgn0
    have hlp : Json.lookup (generate_prop_obj p).1 "properties" =
        some (.obj (cs.map fun x => (x.name, Json.obj (generate_nested_prop_obj x)))) := by
      rw [lpo_properties, if_pos hobj, generate_nested_properties_map p cs hcs hnd]
    have hlr := lookup_required_object p cs hobj hcs hrr
    have hcf : ∀ x ∈ cs, importRequiredFlag (generate_prop_obj p).1 x.name = x.required :=
      fun x hx => flag_eq_required _ cs x hlr hx hnd
    have hnl := importNestedList_roundtrip (generate_prop_obj p).1 cs hcf hgn
    simp only [importProperty, hdt, hrs, hflag, hlp, hnl]
    rw [← hcs, ← hrr, ← hap]
    obtain ⟨f⟩ := p
    rfl
  · have hpn0 := hnObj hobj
    rw [Option.isNone_iff_eq_none] at hpn0
    have hlp : Json.lookup (generate_prop_obj p).1 "properties" = none := by
      rw [lpo_properties, if_neg hobj]
    simp only [importProperty, hdt, hrs, hflag, hlp]
    rw [← hpn0, ← hrr, ← hap]
    obtain ⟨f⟩ := p
    rfl

theorem importPropertyList_roundtrip (doc_obj : List (String × Json)) (ps : List Property)
    (hflag : ∀ p ∈ ps, importRequiredFlag doc_obj p.name = p.required)
    (hg : ∀ p ∈ ps, goodProp p) :
    importPropertyList doc_obj
      (ps.map fun p => (p.name, Json.obj (generate_prop_obj p).1)) = .ok ps := by
  induction ps with
  | nil => rfl
  | cons p rest ih =>
    simp only [List.map_cons, importPropertyList]
    rw [importProperty_roundtrip doc_obj p (hflag p (by simp)) (hg p (by simp)),
      ih (fun q hq => hflag q (by simp [hq])) (fun q hq => hg q (by simp [hq]))]

theorem docPropsRec_fst_map (ps : List Property) (m : List (String × Json))
    (r : List String) (hnd : (namesOf ps).Nodup)
    (hfresh : ∀ p ∈ ps, ∀ w, (p.name, w) ∉ m) :
    (docPropsRec ps m r).1 =
      m ++ ps.map fun p => (p.name, Json.obj (generate_prop_obj p).1) := by
  induction ps generalizing m r with
  | nil => simp [docPropsRec]
  | cons p rest ih =>
    rw [namesOf, List.map_cons, List.nodup_cons] at hnd
    rw [docPropsRec]
    show (docPropsRec rest (insertKV m p.name _) (syncDocStep r p)).1 = _
    rw [insertKV_fresh m p.name _ (hfresh p (by simp)), ih _ _ hnd.2 ?fresh]
    · simp
    case fresh =>
      intro q hq w hw
      rcases List.mem_append.mp hw with hw | hw
      · exact hfresh q (by simp [hq]) w hw
      · simp only [List.mem_singleton, Prod.mk.injEq] at hw
        apply hnd.1
        rw [← hw.1]
        exact List.mem_map_of_mem _ hq

/-! ### Index round trips -/

theorem importIndexProps_roundtrip (l : List (String × String)) :
    importIndexProps (l.map fun t => Json.obj (insertKV [] t.1 (Json.str t.2))) = .ok l := by
  induction l with
  | nil => rfl
  | cons t rest ih =>
    simp only [List.map_cons, importIndexProps]
    rw [show importIndexPairs (insertKV [] t.1 (Json.str t.2)) ("", "asc") =
      Except.ok (t.1, t.2) from rfl, ih]

theorem importIndex_unique (ix : Index) (_hu : ix.unique = true) :
    importIndex [("name", Json.str ix.name),
      ("properties", Json.arr (ix.properties.map fun t =>
        Json.obj (insertKV [] t.1 (Json.str t.2)))),
      ("unique", Json.bool ix.unique)] = .ok ix := by
  have h := importIndexProps_roundtrip ix.properties
  simp [importIndex, Json.lookup, Json.asStr, Json.asBool, h]

theorem importIndex_nonunique (ix : Index) (hu : ix.unique = false) :
    importIndex [("name", Json.str ix.name),
      ("properties", Json.arr (ix.properties.map fun t =>
        Json.obj (insertKV [] t.1 (Json.str t.2))))] = .ok ix := by
  have h := importIndexProps_roundtrip ix.properties
  simp [importIndex, Json.lookup, Json.asStr, Json.asBool, h]
  rw [← hu]

theorem importIndexList_roundtrip (ixs : List Index) :
    importIndexList (ixs.map generate_index_obj) = .ok ixs := by
  induction ixs with
  | nil => rfl
  | cons ix rest ih =>
    by_cases hu : ix.unique
    · simp only [List.map_cons, generate_index_obj, if_pos hu, importIndexList]
      rw [importIndex_unique ix hu, ih]
    · simp only [List.map_cons, generate_index_obj, if_neg hu, importIndexList]
      rw [importIndex_nonunique ix (by simpa using hu), ih]

/-! ### Document-level round trip -/

theorem importDocumentType_roundtrip (d : DocumentType) (hg : goodDoc d) :
    importDocumentType d.name (Json.obj (generate_doc_obj d).1) = .ok (some d) := by
  obtain ⟨hnd, hreq0, hap, hcom, hprops⟩ := hg
  have hlp : Json.lookup (generate_doc_obj d).1 "properties" =
      some (.obj (d.properties.map fun p => (p.name, Json.obj (generate_prop_obj p).1))) := by
    rw [ldo_properties, docPropsRec_fst_map d.properties [] d.required hnd (by simp)]
    simp
  have hlr := lookup_doc_required d hreq0
  have hflag : ∀ p ∈ d.properties,
      importRequiredFlag (generate_doc_obj d).1 p.name = p.required :=
    fun p hp => flag_eq_required _ d.properties p hlr hp hnd
  have hpl := importPropertyList_roundtrip (generate_doc_obj d).1 d.properties hflag hprops
  by_cases hi : d.indices = []
  · have hcom' : d.comment = "" := by
      rcases hcom with h | h
      · exact h
      · exact absurd hi h
    have hli : Json.lookup (generate_doc_obj d).1 "indices" = none := by
      rw [ldo_indices, if_neg (by simpa using hi)]
    simp only [importDocumentType, Json.asObj, hlp, hpl, hli]
    rw [← hreq0, ← hi, ← hcom', show false = d.additionalProperties from hap.symm]
  · have hli : Json.lookup (generate_doc_obj d).1 "indices" =
        some (.arr (d.indices.map generate_index_obj)) := by
      rw [ldo_indices, if_pos (by simpa using hi)]
    have hil := importIndexList_roundtrip d.indices
    by_cases hc : d.comment = ""
    · have hlc' : Json.lookup (generate_doc_obj d).1 "$comment" = none := by
        rw [ldo_comment, if_neg (by simp [hc])]
      simp only [importDocumentType, Json.asObj, hlp, hpl, hli, hil, hlc']
      rw [← hreq0, ← hc, show false = d.additionalProperties from hap.symm]
    · have hlc' : Json.lookup (generate_doc_obj d).1 "$comment" = some (.str d.comment) := by
        rw [ldo_comment, if_pos (length_pos_of_ne_empty _ hc)]
      simp only [importDocumentType, Json.asObj, hlp, hpl, hli, hil, hlc', Json.asStr]
      rw [← hreq0, show false = d.additionalProperties from hap.symm]

theorem importDocList_roundtrip (docs : List DocumentType) (hg : ∀ d ∈ docs, goodDoc d) :
    importDocList (compiledMap docs) = .ok docs := by
  induction docs with
  | nil => rfl
  | cons d rest ih =>
    simp only [compiledMap, List.map_cons, importDocList]
    simp only [compiledMap] at ih
    rw [importDocumentType_roundtrip d (hg d (by simp)),
      ih fun q hq => hg q (by simp [hq])]

/-! ### C1: the claim -/

/-- The property of the C1 counterexample: an Integer property with the
non-default `minimum = -5`. -/
def c1prop : Property :=
  .mk { name := "m", data_type := DataType.Integer, minimum := some (-5) }

/-- The document type of the C1 counterexample. -/
def c1doc : DocumentType := { name := "a", properties := [c1prop] }

/-- C1 counterexample: `minimum = -5` is a non-default optional field, yet the
compiler emits `minimum` only when it is strictly positive (main.rs 702), so
the compiled document drops it and the reimport yields `minimum = none ≠
some (-5)` — the round trip fails on a tree built purely from the documented
field set with non-default-valued optional fields. The compiled document here
has a single top-level entry, so the parsed `HashMap` has exactly one
enumeration order and `compiledMap [c1doc]` is the only list the importer can
be handed. -/
theorem C1_counterexample :
    parse_imported_json (some (compiledMap [c1doc])) ≠ Except.ok [c1doc] := by
  intro h
  have h2 := congrArg (fun r : Except String (List DocumentType) =>
    (r.toOption.getD []).map fun d => d.properties.map Property.minimum) h
  exact absurd h2 (by decide)

theorem exists_preimage_of_map_perm {α β : Type} (f : α → β) (L m : List β)
    (h : L.Perm m) :
    ∀ l : List α, L = l.map f → ∃ l' : List α, l'.Perm l ∧ m = l'.map f := by
  induction h with
  | nil =>
    intro l hl
    exact ⟨l, List.Perm.refl l, hl⟩
  | cons a h ih =>
    intro l hl
    obtain ⟨x, l₀, rfl, hfx, hmap⟩ := List.map_eq_cons_iff.mp hl.symm
    obtain ⟨l₁, hperm, rfl⟩ := ih l₀ hmap.symm
    exact ⟨x :: l₁, List.Perm.cons x hperm, by simp [hfx]⟩
  | swap a b t =>
    intro l hl
    obtain ⟨x, l₀, rfl, hfx, hmap⟩ := List.map_eq_cons_iff.mp hl.symm
    obtain ⟨x', l₁, rfl, hfx', hmap'⟩ := List.map_eq_cons_iff.mp hmap
    exact ⟨x' :: x :: l₁, List.Perm.swap x x' l₁, by simp [hfx, hfx', hmap']⟩
  | trans h₁ h₂ ih₁ ih₂ =>
    intro l hl
    obtain ⟨l₁, hp₁, rfl⟩ := ih₁ l hl
    obtain ⟨l₂, hp₂, rfl⟩ := ih₂ l₁ rfl
    exact ⟨l₂, hp₂.trans hp₁, rfl⟩

/-- C1 (amended): importing the compiled form reproduces the tree up to
permutation of the document types, for trees the importer can faithfully
reconstruct. The importer iterates the parsed `HashMap<String, Value>`
(main.rs 882) in an unspecified order, so the theorem quantifies over every
enumeration `m` of the compiled entries and returns the document types in that
enumeration's order — a permutation of the original list (the identity when
there is a single document type). Each reconstructed document type is exactly
its original. The reconstructibility conditions: distinct document-type and
property names, numeric optional fields absent or positive (and in `u32`/`i32`
range), string optional fields absent or non-empty, pristine derived required
state (`required = []`, `rec_required = none`), the constant
`additionalProperties`, nested property lists present exactly on `Object`
properties and at most one level deep, and a document comment only alongside a
non-empty index list (see C6). -/
theorem C1_amended_roundtrip (docs : List DocumentType) (m : List (String × Json))
    (h : goodDocs docs) (hm : m.Perm (compiledMap docs)) :
    ∃ docs2 : List DocumentType, docs2.Perm docs ∧
      parse_imported_json (some m) = Except.ok docs2 := by
  have hm' : m.Perm (docs.map fun d => (d.name, Json.obj (generate_doc_obj d).1)) := hm
  obtain ⟨docs2, hp, rfl⟩ := exists_preimage_of_map_perm
    (fun d => (d.name, Json.obj (generate_doc_obj d).1))
    (docs.map fun d => (d.name, Json.obj (generate_doc_obj d).1)) m
    hm'.symm docs rfl
  refine ⟨docs2, hp, ?_⟩
  show importDocList (compiledMap docs2) = Except.ok docs2
  exact importDocList_roundtrip docs2 fun d hd => h.2 d (hp.mem_iff.mp hd)

/-- A document type of the C1 witness: the spec's §8 scenario, a `"note"`
document type with one required String property `"body"`. -/
def c1wdoc : DocumentType :=
  { name := "note", properties := [Property.mk { name := "body", required := true }] }

/-- Second document type of the C1 witness, so that the witness exercises a
non-trivial enumeration order of the parsed map. -/
def c1wdoc2 : DocumentType :=
  { name := "tag", properties := [Property.mk { name := "label" }] }

/-- Witness for C1 (amended): the two compiled entries handed to the importer
in the order opposite to compilation (one of the two enumerations the
`HashMap` may produce). -/
theorem C1_amended_witness :
    (goodDocs [c1wdoc, c1wdoc2] ∧
      (compiledMap [c1wdoc2, c1wdoc]).Perm (compiledMap [c1wdoc, c1wdoc2])) ∧
    ∃ docs2 : List DocumentType, docs2.Perm [c1wdoc, c1wdoc2] ∧
      parse_imported_json (some (compiledMap [c1wdoc2, c1wdoc])) = Except.ok docs2 :=
  ⟨⟨by decide, List.Perm.swap _ _ _⟩,
    C1_amended_roundtrip [c1wdoc, c1wdoc2] (compiledMap [c1wdoc2, c1wdoc])
      (by decide) (List.Perm.swap _ _ _)⟩

end DCC
